import Mathlib

set_option maxRecDepth 20000
set_option maxHeartbeats 1000000

/-!  Verification of the Round 42 keyboard-fix patcher (patch.py).

A byte buffer is modelled as a `List Nat` (each element one byte value).
Python exceptions are modelled by `Except Err`; the external `nasm`
builder invocation is an opaque parameter returning the bytes of the
produced `patch.bin` blob (`none` models a non-zero builder exit).
-/

/-- Errors raised by the script: Python `ValueError` with its message,
`struct.error` from `struct` packing/unpacking, a non-zero exit status of the
external builder process, and `IndexError` from byte indexing. -/
inductive Err
  | valueError (msg : String)
  | structError
  | builderFailure
  | indexError
  deriving DecidableEq

/-- Hex digit character, as produced by Python format code `x`. -/
def hexDigit (n : Nat) : Char :=
  "0123456789abcdef".data.getD n '*'

/-- One byte rendered as two lowercase hex digits (Python format code `02x`). -/
def hexByte (b : Nat) : String :=
  String.mk [hexDigit (b / 16 % 16), hexDigit (b % 16)]

/-- Space-joined hex rendering of a pattern, as in `find_pattern` and
`find_pattern_all` of patch.py. -/
def hexOfPattern (p : List Nat) : String :=
  String.intercalate " " (p.map hexByte)

/-- The diagnostic message of the ValueError raised when a pattern is absent. -/
def patternMsg (p : List Nat) : String :=
  "Could not find pattern: [" ++ hexOfPattern p ++ "] in input file"

/-- Byte values of a caption string (the `.encode("ansi")` of patch.py,
restricted to the code points actually used). -/
def strBytes (s : String) : List Nat :=
  s.data.map Char.toNat

/-- Python slice assignment `data[start:stop] = repl` on a bytearray. -/
def setSlice (data : List Nat) (start : Nat) (repl : List Nat) (stop : Nat) : List Nat :=
  data.take start ++ repl ++ data.drop stop

/-- Python slice read `data[start:stop]` with Python's negative-index and
clamping semantics. -/
def pySlice (data : List Nat) (start stop : Int) : List Nat :=
  (data.take
      ((if stop < 0 then max ((data.length : Int) + stop) 0
        else min stop (data.length : Int)).toNat)).drop
    ((if start < 0 then max ((data.length : Int) + start) 0
      else min start (data.length : Int)).toNat)

/-- `read_le_word` of patch.py: `struct.unpack("<H", data[offset:offset+2])[0]`.
`struct.unpack` raises `struct.error` unless the slice holds exactly 2 bytes. -/
def read_le_word (data : List Nat) (offset : Int) : Except Err Nat :=
  match pySlice data offset (offset + 2) with
  | [lo, hi] => .ok (lo + 256 * hi)
  | _ => .error .structError

/-- `write_le_word` of patch.py: `struct.pack_into("<H", data, offset, value)`.
`pack_into` raises `struct.error` when the value does not fit an unsigned
16-bit field or the buffer is too short. -/
def write_le_word (data : List Nat) (offset : Nat) (value : Nat) : Except Err (List Nat) :=
  if value < 65536 ∧ offset + 2 ≤ data.length then
    .ok (setSlice data offset [value % 256, value / 256] (offset + 2))
  else .error .structError

/-- `struct.pack("<H", v)` on a Python int: little-endian unsigned 16-bit,
raising `struct.error` outside `[0, 65535]`. -/
def pack_le_word (v : Int) : Except Err (List Nat) :=
  if 0 ≤ v ∧ v < 65536 then .ok [v.toNat % 256, v.toNat / 256] else .error .structError

/-- Scan helper for Python `bytes.find`: the least index of the scanned list at
which `pattern` is a window, else `none`. -/
def searchAux (pattern : List Nat) : List Nat → Option Nat
  | [] => if pattern = [] then some 0 else none
  | d :: ds =>
    if (d :: ds).take pattern.length = pattern then some 0
    else (searchAux pattern ds).map (fun j => j + 1)

/-- Python `data.find(pattern, start)`, with `none` for Python's -1. -/
def pyFind (data pattern : List Nat) (start : Nat) : Option Nat :=
  if start ≤ data.length then
    (searchAux pattern (data.drop start)).map (fun j => start + j)
  else none

/-- The pattern occurs in the buffer as the window starting at offset `i`. -/
def occursAt (data pattern : List Nat) (i : Nat) : Prop :=
  i ≤ data.length ∧ (data.drop i).take pattern.length = pattern

instance occursAtDec (data pattern : List Nat) (i : Nat) : Decidable (occursAt data pattern i) :=
  inferInstanceAs (Decidable (_ ∧ _))

/-- `find_pattern` of patch.py: first occurrence offset, or a ValueError
carrying the hex rendering of the pattern. -/
def find_pattern (data pattern : List Nat) : Except Err Nat :=
  match pyFind data pattern 0 with
  | none => .error (.valueError (patternMsg pattern))
  | some loc => .ok loc

/-- `occursAt` rephrased pointwise through `getElem?`. -/
theorem occursAt_iff_getElem {data pattern : List Nat} {i : Nat} :
    occursAt data pattern i ↔
      (i + pattern.length ≤ data.length ∧
        ∀ k, k < pattern.length → data[i + k]? = pattern[k]?) := by
  constructor
  · intro h
    obtain ⟨hle, hwin⟩ := h
    have hlen : ((data.drop i).take pattern.length).length = pattern.length := by
      rw [hwin]
    have hlen2 : min pattern.length (data.length - i) = pattern.length := by
      simpa using hlen
    refine ⟨by omega, ?_⟩
    intro k hk
    have : ((data.drop i).take pattern.length)[k]? = pattern[k]? := by rw [hwin]
    rwa [List.getElem?_take_of_lt hk, List.getElem?_drop] at this
  · intro ⟨hle, hall⟩
    refine ⟨by omega, ?_⟩
    apply List.ext_getElem?
    intro n
    by_cases hn : n < pattern.length
    · rw [List.getElem?_take_of_lt hn, List.getElem?_drop, hall n hn]
    · rw [List.getElem?_eq_none (l := pattern) (by omega)]
      apply List.getElem?_eq_none
      simp only [List.length_take, List.length_drop]
      omega

/-- Simplified window form: an occurrence pins down each byte of the window. -/
theorem occursAt_imp_getElem {data pattern : List Nat} {i : Nat} (h : occursAt data pattern i) :
    ∀ k, k < pattern.length → data[i + k]? = pattern[k]? :=
  (occursAt_iff_getElem.mp h).2

/-- An occurrence of a nonempty pattern fits inside the buffer. -/
theorem occursAt_bound {data pattern : List Nat} {i : Nat} (h : occursAt data pattern i) :
    i + pattern.length ≤ data.length :=
  (occursAt_iff_getElem.mp h).1

/-- A byte mismatch anywhere in the window refutes an occurrence. -/
theorem not_occursAt_of_getElem_ne {data pattern : List Nat} {i k : Nat}
    (hk : k < pattern.length) (hne : data[i + k]? ≠ pattern[k]?) :
    ¬ occursAt data pattern i := by
  intro h
  exact hne (occursAt_imp_getElem h k hk)

/-- Characterisation of the scan helper: success returns the least matching
window index. -/
theorem searchAux_eq_some_iff {pattern : List Nat} :
    ∀ {l : List Nat} {j : Nat},
      searchAux pattern l = some j ↔
        ((l.drop j).take pattern.length = pattern ∧
          ∀ k, k < j → (l.drop k).take pattern.length ≠ pattern) := by
  intro l
  induction l with
  | nil =>
    intro j
    constructor
    · intro h
      by_cases hp : pattern = []
      · rw [searchAux, if_pos hp] at h
        cases h
        subst hp
        exact ⟨by simp, by omega⟩
      · rw [searchAux, if_neg hp] at h
        cases h
    · rintro ⟨hwin, hmin⟩
      by_cases hp : pattern = []
      · rw [searchAux, if_pos hp]
        have hj : j = 0 := by
          by_contra hj
          exact (hmin 0 (by omega)) (by simp [hp])
        rw [hj]
      · exfalso
        apply hp
        rw [List.drop_nil] at hwin
        simpa using hwin.symm
  | cons d ds ih =>
    intro j
    by_cases hhit : (d :: ds).take pattern.length = pattern
    · rw [searchAux, if_pos hhit]
      constructor
      · rintro h
        cases h
        exact ⟨hhit, by omega⟩
      · rintro ⟨hwin, hmin⟩
        have hj : j = 0 := by
          by_contra hj
          exact (hmin 0 (by omega)) (by simpa using hhit)
        rw [hj]
    · rw [searchAux, if_neg hhit]
      constructor
      · intro h
        obtain ⟨j0, hj0, rfl⟩ := Option.map_eq_some'.mp h
        obtain ⟨hwin, hmin⟩ := ih.mp hj0
        refine ⟨by simpa using hwin, ?_⟩
        intro k hk
        match k with
        | 0 => simpa using hhit
        | k + 1 =>
          have := hmin k (by omega)
          simpa using this
      · rintro ⟨hwin, hmin⟩
        match j with
        | 0 => exact absurd (by simpa using hwin) hhit
        | j + 1 =>
          rw [Option.map_eq_some']
          refine ⟨j, ih.mpr ⟨by simpa using hwin, ?_⟩, rfl⟩
          intro k hk
          have := hmin (k + 1) (by omega)
          simpa using this

/-- Characterisation of scan failure: no window matches. -/
theorem searchAux_eq_none_iff {pattern : List Nat} :
    ∀ {l : List Nat},
      searchAux pattern l = none ↔
        (pattern ≠ [] ∧ ∀ k, (l.drop k).take pattern.length ≠ pattern) := by
  intro l
  induction l with
  | nil =>
    constructor
    · intro h
      by_cases hp : pattern = []
      · rw [searchAux, if_pos hp] at h
        cases h
      · refine ⟨hp, ?_⟩
        intro k
        rw [List.drop_nil]
        intro hwin
        exact hp (by simpa using hwin.symm)
    · rintro ⟨hp, -⟩
      rw [searchAux, if_neg hp]
  | cons d ds ih =>
    by_cases hhit : (d :: ds).take pattern.length = pattern
    · rw [searchAux, if_pos hhit]
      constructor
      · intro h; cases h
      · rintro ⟨-, hall⟩
        exact absurd (by simpa using hhit) (hall 0)
    · rw [searchAux, if_neg hhit]
      constructor
      · intro h
        have h0 : searchAux pattern ds = none := by
          cases hsa : searchAux pattern ds with
          | none => rfl
          | some v => rw [hsa] at h; cases h
        obtain ⟨hp, hall⟩ := ih.mp h0
        refine ⟨hp, ?_⟩
        intro k
        match k with
        | 0 => simpa using hhit
        | k + 1 => simpa using hall k
      · rintro ⟨hp, hall⟩
        have h0 : searchAux pattern ds = none := by
          apply ih.mpr
          refine ⟨hp, ?_⟩
          intro k
          have := hall (k + 1)
          simpa using this
        rw [h0]
        rfl

/-- `pyFind` success: least occurrence at or after `start`. -/
theorem pyFind_eq_some_iff {data pattern : List Nat} {start i : Nat} :
    pyFind data pattern start = some i ↔
      (start ≤ i ∧ occursAt data pattern i ∧
        ∀ j, start ≤ j → j < i → ¬ occursAt data pattern j) := by
  unfold pyFind
  by_cases hs : start ≤ data.length
  · rw [if_pos hs]
    constructor
    · intro h
      obtain ⟨j0, hj0, rfl⟩ := Option.map_eq_some'.mp h
      obtain ⟨hwin, hmin⟩ := searchAux_eq_some_iff.mp hj0
      rw [List.drop_drop] at hwin
      have hocc : occursAt data pattern (start + j0) := by
        refine ⟨?_, hwin⟩
        by_cases hp : pattern = []
        · have hj0' : j0 = 0 := by
            by_contra hj'
            exact (hmin 0 (by omega)) (by simp [hp])
          omega
        · have hlen : ((data.drop (start + j0)).take pattern.length).length = pattern.length := by
            rw [hwin]
          have hmin2 : min pattern.length (data.length - (start + j0)) = pattern.length := by
            simpa using hlen
          have hplen : 0 < pattern.length := List.length_pos.mpr hp
          omega
      refine ⟨by omega, hocc, ?_⟩
      intro j hj1 hj2
      intro hocc2
      have := hmin (j - start) (by omega)
      apply this
      rw [List.drop_drop]
      have : start + (j - start) = j := by omega
      rw [this]
      exact hocc2.2
    · rintro ⟨hsi, hocc, hmin⟩
      rw [Option.map_eq_some']
      refine ⟨i - start, ?_, by omega⟩
      apply searchAux_eq_some_iff.mpr
      constructor
      · rw [List.drop_drop]
        have : start + (i - start) = i := by omega
        rw [this]
        exact hocc.2
      · intro k hk
        rw [List.drop_drop]
        intro hwin
        apply hmin (start + k) (by omega) (by omega)
        refine ⟨?_, hwin⟩
        by_cases hp : pattern = []
        · have hocc1 : i ≤ data.length := hocc.1
          omega
        · have hlen : ((data.drop (start + k)).take pattern.length).length = pattern.length := by
            rw [hwin]
          have hmin2 : min pattern.length (data.length - (start + k)) = pattern.length := by
            simpa using hlen
          have hplen : 0 < pattern.length := List.length_pos.mpr hp
          omega
  · rw [if_neg hs]
    constructor
    · intro h; cases h
    · rintro ⟨hsi, hocc, -⟩
      have := hocc.1
      omega

/-- `pyFind` failure: no occurrence at or after `start`. -/
theorem pyFind_eq_none_iff {data pattern : List Nat} {start : Nat} :
    pyFind data pattern start = none ↔ ∀ j, start ≤ j → ¬ occursAt data pattern j := by
  constructor
  · intro h j hj hocc
    cases hfind : pyFind data pattern start with
    | none =>
      unfold pyFind at hfind
      by_cases hs : start ≤ data.length
      · rw [if_pos hs] at hfind
        have hnone : searchAux pattern (data.drop start) = none := by
          cases hsa : searchAux pattern (data.drop start) with
          | none => rfl
          | some v => rw [hsa] at hfind; cases hfind
        obtain ⟨hp, hall⟩ := searchAux_eq_none_iff.mp hnone
        have := hall (j - start)
        apply this
        rw [List.drop_drop]
        have : start + (j - start) = j := by omega
        rw [this]
        exact hocc.2
      · have := hocc.1; omega
    | some v => rw [h] at hfind; cases hfind
  · intro hall
    cases hfind : pyFind data pattern start with
    | none => rfl
    | some v =>
      obtain ⟨hsv, hocc, -⟩ := pyFind_eq_some_iff.mp hfind
      exact absurd hocc (hall v hsv)

/-- The while loop of `find_pattern_all`: collect successive `find` hits,
restarting one past each hit. -/
def findAllLoop (data pattern : List Nat) (pos : Nat) : List Nat :=
  match h : pyFind data pattern pos with
  | none => []
  | some i => i :: findAllLoop data pattern (i + 1)
termination_by data.length + 1 - pos
decreasing_by
  obtain ⟨hpi, hocc, -⟩ := pyFind_eq_some_iff.mp h
  have := hocc.1
  omega

/-- One-step unfolding of the loop. -/
theorem findAllLoop_unfold (data pattern : List Nat) (pos : Nat) :
    findAllLoop data pattern pos =
      match pyFind data pattern pos with
      | none => []
      | some i => i :: findAllLoop data pattern (i + 1) := by
  rw [findAllLoop]
  cases hfind : pyFind data pattern pos <;> simp

/-- The loop returns exactly the occurrences at or after `pos`, strictly
ascending. -/
theorem findAllLoop_spec (data pattern : List Nat) :
    ∀ pos, (∀ i, i ∈ findAllLoop data pattern pos ↔ (pos ≤ i ∧ occursAt data pattern i)) ∧
      List.Pairwise (fun a b => a < b) (findAllLoop data pattern pos) := by
  have main : ∀ n pos, data.length + 1 - pos ≤ n →
      (∀ i, i ∈ findAllLoop data pattern pos ↔ (pos ≤ i ∧ occursAt data pattern i)) ∧
        List.Pairwise (fun a b => a < b) (findAllLoop data pattern pos) := by
    intro n
    induction n with
    | zero =>
      intro pos hpos
      rw [findAllLoop_unfold]
      cases hfind : pyFind data pattern pos with
      | none =>
        refine ⟨?_, by simp⟩
        intro i
        simp only [List.not_mem_nil, false_iff]
        rintro ⟨hle, hocc⟩
        exact pyFind_eq_none_iff.mp hfind i hle hocc
      | some v =>
        obtain ⟨hpv, hocc, -⟩ := pyFind_eq_some_iff.mp hfind
        have := hocc.1
        omega
    | succ m ih =>
      intro pos hpos
      rw [findAllLoop_unfold]
      cases hfind : pyFind data pattern pos with
      | none =>
        refine ⟨?_, by simp⟩
        intro i
        simp only [List.not_mem_nil, false_iff]
        rintro ⟨hle, hocc⟩
        exact pyFind_eq_none_iff.mp hfind i hle hocc
      | some v =>
        obtain ⟨hpv, hocc, hmin⟩ := pyFind_eq_some_iff.mp hfind
        have hvlen : v ≤ data.length := hocc.1
        obtain ⟨ihmem, ihpw⟩ := ih (v + 1) (by omega)
        constructor
        · intro i
          simp only [List.mem_cons, ihmem]
          constructor
          · rintro (rfl | ⟨h1, h2⟩)
            · exact ⟨hpv, hocc⟩
            · exact ⟨by omega, h2⟩
          · rintro ⟨h1, h2⟩
            by_cases hiv : i = v
            · exact Or.inl hiv
            · right
              refine ⟨?_, h2⟩
              by_contra hlt
              exact hmin i h1 (by omega) h2
        · apply List.Pairwise.cons
          · intro b hb
            have := (ihmem b).mp hb
            omega
          · exact ihpw
  intro pos
  exact main (data.length + 1 - pos) pos (by omega)

/-- `find_pattern_all` of patch.py: all occurrence offsets in ascending order,
or a ValueError carrying the hex rendering of the pattern when none exist. -/
def find_pattern_all (data pattern : List Nat) : Except Err (List Nat) :=
  match findAllLoop data pattern 0 with
  | [] => .error (.valueError (patternMsg pattern))
  | r :: rs => .ok (r :: rs)

/-! ## Constants and byte patterns of patch.py -/

/-- Address the game uses to store the last scancode. -/
def ADDR_LAST_SCANCODE : Nat := 0x0F9E

/-- Address COM files are loaded at. -/
def ADDR_COM_LOAD : Nat := 0x100

/-- Location of the word in the COM file used to set the DS register. -/
def DS_LOCATION : Nat := 0x2BBF

/-- `struct.pack("<H", ADDR_LAST_SCANCODE)`. -/
def addr_bytes : List Nat := [ADDR_LAST_SCANCODE % 256, ADDR_LAST_SCANCODE / 256]

/-- Pattern for `mov [last_scancode], ax`. -/
def pattern_init_scancode : List Nat := 0xa3 :: addr_bytes

/-- Pattern for `mov [last_scancode], bx`. -/
def pattern_write_scancode : List Nat := 0x89 :: 0x1e :: addr_bytes

/-- Pattern for `mov ax, [last_scancode]`. -/
def pattern_read_scancode : List Nat := 0xa1 :: addr_bytes

/-- Pattern for `jmp A7E9; mov cx, 8`. -/
def pattern_round_message : List Nat := [0xe9, 0xa7, 0x01, 0xb9, 0x08, 0x00]

/-- Pattern for `mov al, [C66]`. -/
def pattern_read_up_flag : List Nat := [0xa0, 0x66, 0x0c]

/-- Pattern for the game's key handler prologue followed by the
read-scancode instruction. -/
def pattern_key_handler : List Nat :=
  [0x55, 0x8b, 0xec, 0x55, 0xe9, 0x00, 0x00] ++ pattern_read_scancode

/-! ## Patch operations -/

/-- Top row of the version box. -/
def boxTop : List Nat := 0xda :: (List.replicate 14 0xc4 ++ [0xbf])

/-- Bottom row of the version box. -/
def boxBottom : List Nat := 0xc0 :: (List.replicate 14 0xc4 ++ [0xd9])

/-- A caption row of the version box: `\xb3` + caption left-justified to
width 14 + `\xb3` (Python `f"\xb3{line:<14}\xb3"`). -/
def boxLine (line : List Nat) : List Nat :=
  0xb3 :: ((line ++ List.replicate (14 - line.length) 0x20) ++ [0xb3])

/-- `patch_version_box` of patch.py: four 16-byte slice assignments, applied
in source order (top row, caption rows, bottom row). -/
def patch_version_box (game_data : List Nat)
    (addr_top addr_line1 addr_line2 addr_bottom : Nat) (line1 line2 : List Nat) : List Nat :=
  setSlice
    (setSlice
      (setSlice
        (setSlice game_data addr_top boxTop (addr_top + 16))
        addr_line1 (boxLine line1) (addr_line1 + 16))
      addr_line2 (boxLine line2) (addr_line2 + 16))
    addr_bottom boxBottom (addr_bottom + 16)

/-- `patch_call` of patch.py: emit `call` opcode 0xE8, the 16-bit little-endian
displacement `call_address - (patch_location + 3)`, and no-op filler 0x90,
then assign the bytes over the patch site. -/
def patch_call (game_data : List Nat) (patch_location size call_address : Nat) :
    Except Err (List Nat) :=
  match pack_le_word ((call_address : Int) - ((patch_location : Int) + 3)) with
  | .error e => .error e
  | .ok disp =>
    .ok (setSlice game_data patch_location
      (0xe8 :: (disp ++ List.replicate (size - 3) 0x90)) (patch_location + size))

/-- The version-box step of `patch_game` (lines 122-131 of patch.py): the size
dispatch that also raises `Unknown game version`. -/
def apply_version_box (game_data : List Nat) (game_size : Nat) : Except Err (List Nat) :=
  if game_size = 0xEC00 then
    .ok (patch_version_box game_data 0xE5A2 0xE5F1 0xE640 0xE68F
      (strBytes "Round 42 v1.0") (strBytes "Keyboard fix 1"))
  else if game_size = 0xF382 then
    .ok (patch_version_box game_data 0xED21 0xED44 0xED93 0xEDE2
      (strBytes "Round-42 v2.0") (strBytes "Keyboard fix 1"))
  else .error (.valueError "Unknown game version")

/-- The footer parse of `patch_game` (lines 134-138): five little-endian words
read from the last 10 bytes of the builder blob, in source order. -/
def read_footer (patch_data : List Nat) : Except Err (Nat × Nat × Nat × Nat × Nat) :=
  match read_le_word patch_data ((patch_data.length : Int) - 10) with
  | .error e => .error e
  | .ok vars_size =>
    match read_le_word patch_data ((patch_data.length : Int) - 8) with
    | .error e => .error e
    | .ok addr_reset_buffer =>
      match read_le_word patch_data ((patch_data.length : Int) - 6) with
      | .error e => .error e
      | .ok addr_put_scancode =>
        match read_le_word patch_data ((patch_data.length : Int) - 4) with
        | .error e => .error e
        | .ok addr_get_scancode =>
          match read_le_word patch_data ((patch_data.length : Int) - 2) with
          | .error e => .error e
          | .ok addr_on_round_start =>
            .ok (vars_size, addr_reset_buffer, addr_put_scancode,
                 addr_get_scancode, addr_on_round_start)

/-- The new DS register value of `patch_game` (lines 141-145):
`ds_value + (max(0, end_of_code - ds_value*0x10) + 0xF) // 0x10`. -/
def new_ds_value (end_of_code ds_value : Nat) : Nat :=
  ds_value + ((max 0 ((end_of_code : Int) - (ds_value : Int) * 0x10)).toNat + 0xF) / 0x10

/-- The data-segment fix of `patch_game` (lines 141-146): read the DS word,
compute the adjusted value, and write it back. -/
def apply_segment_fix (game_data : List Nat) (patch_len vars_size : Nat) :
    Except Err (List Nat) :=
  match read_le_word game_data (DS_LOCATION : Int) with
  | .error e => .error e
  | .ok ds_value =>
    write_le_word game_data DS_LOCATION
      (new_ds_value (ADDR_COM_LOAD + game_data.length + patch_len + vars_size) ds_value)

/-- Lines 149-150: locate the init-scancode site and patch a 3-byte call. -/
def patch_init_site (game_data : List Nat) (addr : Nat) : Except Err (List Nat) :=
  match find_pattern game_data pattern_init_scancode with
  | .error e => .error e
  | .ok loc => patch_call game_data loc 3 addr

/-- Lines 153-154: locate the write-scancode site and patch a 4-byte call. -/
def patch_write_site (game_data : List Nat) (addr : Nat) : Except Err (List Nat) :=
  match find_pattern game_data pattern_write_scancode with
  | .error e => .error e
  | .ok loc => patch_call game_data loc 4 addr

/-- The loop body of lines 157-158: patch a 3-byte call at each located
read-scancode site in order. -/
def patch_calls_at (game_data : List Nat) (locs : List Nat) (addr : Nat) :
    Except Err (List Nat) :=
  match locs with
  | [] => .ok game_data
  | loc :: rest =>
    match patch_call game_data loc 3 addr with
    | .error e => .error e
    | .ok gd2 => patch_calls_at gd2 rest addr

/-- Lines 157-158: locate every read-scancode site and patch each. -/
def patch_read_sites (game_data : List Nat) (addr : Nat) : Except Err (List Nat) :=
  match find_pattern_all game_data pattern_read_scancode with
  | .error e => .error e
  | .ok locs => patch_calls_at game_data locs addr

/-- Lines 161-162: locate the round-message site; the call goes 3 bytes past
the pattern start (after the jmp instruction). -/
def patch_branch_site (game_data : List Nat) (addr : Nat) : Except Err (List Nat) :=
  match find_pattern game_data pattern_round_message with
  | .error e => .error e
  | .ok loc => patch_call game_data (loc + 3) 3 addr

/-- Lines 165-166: locate the read-up-flag instruction and execute
`game_data[loc + 7] += 1` with Python bytearray semantics: `IndexError` when
out of range, `ValueError` when the incremented value leaves byte range. -/
def bump_up_flag (game_data : List Nat) : Except Err (List Nat) :=
  match find_pattern game_data pattern_read_up_flag with
  | .error e => .error e
  | .ok loc =>
    match game_data[loc + 7]? with
    | none => .error .indexError
    | some b =>
      if b + 1 < 256 then .ok (game_data.set (loc + 7) (b + 1))
      else .error (.valueError "byte must be in range(0, 256)")

/-- Completed milestones of a `patch_game` run, in the order the source
executes them. -/
inductive Event
  | loaded
  | handlerLocated
  | moduleBuilt
  | cosmeticsApplied
  | footerParsed
  | segmentFixed
  | sitePatchedInit
  | sitePatchedWrite
  | sitePatchedRead
  | sitePatchedBranch
  | upFlagPatched
  | written
  deriving DecidableEq

/-- The milestone sequence of a complete successful run, in source order:
the version box (cosmetics) is applied right after the builder invocation,
before the footer parse, the segment fix and all call-site patches. -/
def canonicalTrace : List Event :=
  [.loaded, .handlerLocated, .moduleBuilt, .cosmeticsApplied, .footerParsed,
   .segmentFixed, .sitePatchedInit, .sitePatchedWrite, .sitePatchedRead,
   .sitePatchedBranch, .upFlagPatched, .written]

/-- `patch_game` of patch.py. The external builder (`nasm` invocation plus
the read-back of patch.bin) is an opaque parameter taking the game size and
the key-handler address and returning the blob bytes, `none` modelling a
non-zero builder exit. The result pairs the trace of completed milestones
with either the bytes of the output file (patched image concatenated with
the blob) or the raised error; the output file is created only as the final
step of a run in which every prior step succeeded. -/
def patch_game (game_data : List Nat) (builder : Nat → Nat → Option (List Nat)) :
    List Event × Except Err (List Nat) :=
  match find_pattern game_data pattern_key_handler with
  | .error e => ([.loaded], .error e)
  | .ok kh_loc =>
    match builder game_data.length (kh_loc + ADDR_COM_LOAD) with
    | none => ([.loaded, .handlerLocated], .error .builderFailure)
    | some patch_data =>
      match apply_version_box game_data game_data.length with
      | .error e => ([.loaded, .handlerLocated, .moduleBuilt], .error e)
      | .ok gd1 =>
        match read_footer patch_data with
        | .error e =>
          ([.loaded, .handlerLocated, .moduleBuilt, .cosmeticsApplied], .error e)
        | .ok (vars_size, addr_reset_buffer, addr_put_scancode,
               addr_get_scancode, addr_on_round_start) =>
          match apply_segment_fix gd1 patch_data.length vars_size with
          | .error e =>
            ([.loaded, .handlerLocated, .moduleBuilt, .cosmeticsApplied,
              .footerParsed], .error e)
          | .ok gd2 =>
            match patch_init_site gd2 addr_reset_buffer with
            | .error e =>
              ([.loaded, .handlerLocated, .moduleBuilt, .cosmeticsApplied,
                .footerParsed, .segmentFixed], .error e)
            | .ok gd3 =>
              match patch_write_site gd3 addr_put_scancode with
              | .error e =>
                ([.loaded, .handlerLocated, .moduleBuilt, .cosmeticsApplied,
                  .footerParsed, .segmentFixed, .sitePatchedInit], .error e)
              | .ok gd4 =>
                match patch_read_sites gd4 addr_get_scancode with
                | .error e =>
                  ([.loaded, .handlerLocated, .moduleBuilt, .cosmeticsApplied,
                    .footerParsed, .segmentFixed, .sitePatchedInit,
                    .sitePatchedWrite], .error e)
                | .ok gd5 =>
                  match patch_branch_site gd5 addr_on_round_start with
                  | .error e =>
                    ([.loaded, .handlerLocated, .moduleBuilt, .cosmeticsApplied,
                      .footerParsed, .segmentFixed, .sitePatchedInit,
                      .sitePatchedWrite, .sitePatchedRead], .error e)
                  | .ok gd6 =>
                    match bump_up_flag gd6 with
                    | .error e =>
                      ([.loaded, .handlerLocated, .moduleBuilt, .cosmeticsApplied,
                        .footerParsed, .segmentFixed, .sitePatchedInit,
                        .sitePatchedWrite, .sitePatchedRead, .sitePatchedBranch],
                       .error e)
                    | .ok gd7 =>
                      (canonicalTrace, .ok (gd7 ++ patch_data))

/-! ## Slice lemmas -/

/-- Length of an in-bounds slice assignment whose replacement matches the
slice width. -/
theorem setSlice_length {data : List Nat} {start : Nat} {repl : List Nat}
    (h : start + repl.length ≤ data.length) :
    (setSlice data start repl (start + repl.length)).length = data.length := by
  unfold setSlice
  simp only [List.length_append, List.length_take, List.length_drop]
  omega

/-- Bytes before the assigned slice are untouched. -/
theorem setSlice_getElem_lt {data : List Nat} {start stop i : Nat} {repl : List Nat}
    (hs : start ≤ data.length) (hi : i < start) :
    (setSlice data start repl stop)[i]? = data[i]? := by
  unfold setSlice
  rw [List.getElem?_append_left (by simp only [List.length_append, List.length_take]; omega),
    List.getElem?_append_left (by simp only [List.length_take]; omega),
    List.getElem?_take_of_lt hi]

/-- Bytes of the replacement land at the slice offsets. -/
theorem setSlice_getElem_mid {data : List Nat} {start stop k : Nat} {repl : List Nat}
    (hs : start ≤ data.length) (hk : k < repl.length) :
    (setSlice data start repl stop)[start + k]? = repl[k]? := by
  unfold setSlice
  rw [List.getElem?_append_left (by simp only [List.length_append, List.length_take]; omega),
    List.getElem?_append_right (by simp only [List.length_take]; omega)]
  congr 1
  simp only [List.length_take]
  omega

/-- Bytes at or past the slice stop are untouched, when the replacement
exactly fills the slice. -/
theorem setSlice_getElem_ge {data : List Nat} {start i : Nat} {repl : List Nat}
    (hs : start ≤ data.length) (hi : start + repl.length ≤ i) :
    (setSlice data start repl (start + repl.length))[i]? = data[i]? := by
  unfold setSlice
  rw [List.getElem?_append_right
      (by simp only [List.length_append, List.length_take]; omega),
    List.getElem?_drop]
  congr 1
  simp only [List.length_append, List.length_take]
  omega

/-- Slice assignment entirely inside the left part of an append. -/
theorem setSlice_front {A B repl : List Nat} {k : Nat}
    (h : k + repl.length ≤ A.length) :
    setSlice (A ++ B) k repl (k + repl.length) = setSlice A k repl (k + repl.length) ++ B := by
  unfold setSlice
  rw [List.take_append_eq_append_take, List.drop_append_eq_append_drop]
  have e1 : k - A.length = 0 := by omega
  have e2 : k + repl.length - A.length = 0 := by omega
  rw [e1, e2]
  simp [List.append_assoc]

/-- Slice assignment landing inside a replicate segment of an append. -/
theorem setSlice_append_replicate {A B repl : List Nat} {n k a : Nat}
    (h1 : A.length ≤ k) (h2 : k + repl.length ≤ A.length + n) :
    setSlice (A ++ (List.replicate n a ++ B)) k repl (k + repl.length) =
      A ++ (List.replicate (k - A.length) a ++ (repl ++
        (List.replicate (A.length + n - (k + repl.length)) a ++ B))) := by
  unfold setSlice
  rw [List.take_append_eq_append_take, List.take_append_eq_append_take,
    List.drop_append_eq_append_drop, List.drop_append_eq_append_drop,
    List.take_of_length_le h1, List.drop_of_length_le (by omega),
    List.take_replicate, List.drop_replicate]
  simp only [List.length_replicate, List.length_take]
  have e1 : k - A.length - n = 0 := by omega
  have e2 : k + repl.length - A.length - n = 0 := by omega
  have e3 : min (k - A.length) n = k - A.length := by omega
  have e4 : n - (k + repl.length - A.length) = A.length + n - (k + repl.length) := by omega
  rw [e1, e2, e3, e4]
  simp [List.append_assoc]

/-! ## General lemmas about the orchestrator -/

/-- Every run's milestone trace is an initial segment of the canonical
sequence. -/
theorem patch_game_trace_take (img : List Nat) (b : Nat → Nat → Option (List Nat)) :
    ∃ k, (patch_game img b).1 = canonicalTrace.take k := by
  unfold patch_game
  repeat' split
  all_goals first
  | exact ⟨1, rfl⟩
  | exact ⟨2, rfl⟩
  | exact ⟨3, rfl⟩
  | exact ⟨4, rfl⟩
  | exact ⟨5, rfl⟩
  | exact ⟨6, rfl⟩
  | exact ⟨7, rfl⟩
  | exact ⟨8, rfl⟩
  | exact ⟨9, rfl⟩
  | exact ⟨10, rfl⟩
  | exact ⟨11, rfl⟩
  | exact ⟨12, rfl⟩

/-- The `written` milestone occurs only in runs whose result is a produced
output file. -/
theorem written_mem_imp_ok (img : List Nat) (b : Nat → Nat → Option (List Nat)) :
    Event.written ∈ (patch_game img b).1 → ∃ out, (patch_game img b).2 = Except.ok out := by
  unfold patch_game
  repeat' split
  all_goals intro h
  all_goals first
  | exact ⟨_, rfl⟩
  | (exfalso; simp at h)

/-- Inversion of a successful run: every step succeeded, in source order, and
the output is the final image concatenated with the builder blob. -/
theorem patch_game_ok_inv {img : List Nat} {b : Nat → Nat → Option (List Nat)}
    {tr : List Event} {out : List Nat}
    (h : patch_game img b = (tr, Except.ok out)) :
    ∃ kh blob gd1 vars aReset aPut aGet aRound gd2 gd3 gd4 gd5 gd6 gd7,
      find_pattern img pattern_key_handler = .ok kh ∧
      b img.length (kh + ADDR_COM_LOAD) = some blob ∧
      apply_version_box img img.length = .ok gd1 ∧
      read_footer blob = .ok (vars, aReset, aPut, aGet, aRound) ∧
      apply_segment_fix gd1 blob.length vars = .ok gd2 ∧
      patch_init_site gd2 aReset = .ok gd3 ∧
      patch_write_site gd3 aPut = .ok gd4 ∧
      patch_read_sites gd4 aGet = .ok gd5 ∧
      patch_branch_site gd5 aRound = .ok gd6 ∧
      bump_up_flag gd6 = .ok gd7 ∧
      out = gd7 ++ blob ∧ tr = canonicalTrace := by
  unfold patch_game at h
  repeat' split at h
  all_goals try (exact Except.noConfusion (congrArg Prod.snd h))
  rename_i x9 kh hkh x8 blob hblob x7 gd1 hbox x6 vars aReset aPut aGet aRound hfoot
    x5 gd2 hseg x4 gd3 hinit x3 gd4 hwrite x2 gd5 hreads x1 gd6 hbranch x0 gd7 hbump
  exact ⟨kh, blob, gd1, vars, aReset, aPut, aGet, aRound, gd2, gd3, gd4, gd5, gd6, gd7,
    hkh, hblob, hbox, hfoot, hseg, hinit, hwrite, hreads, hbranch, hbump,
    (Except.ok.inj (congrArg Prod.snd h)).symm, (congrArg Prod.fst h).symm⟩

/-! ## Characterisations of the pattern-matcher entry points -/

/-- `find_pattern` success: the returned offset is the first occurrence. -/
theorem find_pattern_eq_ok_iff {data pattern : List Nat} {loc : Nat} :
    find_pattern data pattern = .ok loc ↔
      (occursAt data pattern loc ∧ ∀ j, j < loc → ¬ occursAt data pattern j) := by
  unfold find_pattern
  cases hf : pyFind data pattern 0 with
  | none =>
    constructor
    · intro h; cases h
    · rintro ⟨hocc, -⟩
      exact absurd hocc (pyFind_eq_none_iff.mp hf loc (Nat.zero_le loc))
  | some v =>
    obtain ⟨-, hocc, hmin⟩ := pyFind_eq_some_iff.mp hf
    constructor
    · intro h
      cases h
      exact ⟨hocc, fun j hj => hmin j (Nat.zero_le j) hj⟩
    · rintro ⟨hocc2, hmin2⟩
      have hvloc : v = loc := by
        by_contra hne
        rcases Nat.lt_or_ge v loc with hlt | hge
        · exact hmin2 v hlt hocc
        · exact hmin loc (Nat.zero_le loc) (by omega) hocc2
      rw [hvloc]

/-- `find_pattern` failure: no occurrence exists, and the error carries the
hex rendering of the pattern. -/
theorem find_pattern_eq_error_iff {data pattern : List Nat} :
    find_pattern data pattern = .error (.valueError (patternMsg pattern)) ↔
      ∀ j, ¬ occursAt data pattern j := by
  unfold find_pattern
  cases hf : pyFind data pattern 0 with
  | none =>
    simp only [true_iff]
    intro j
    exact pyFind_eq_none_iff.mp hf j (Nat.zero_le j)
  | some v =>
    obtain ⟨-, hocc, -⟩ := pyFind_eq_some_iff.mp hf
    constructor
    · intro h; cases h
    · intro hall
      exact absurd hocc (hall v)

/-- `find_pattern_all` success on any buffer with at least one occurrence:
every occurrence, in strictly ascending order. -/
theorem find_pattern_all_ok {data pattern : List Nat}
    (hex : ∃ i, occursAt data pattern i) :
    ∃ l, find_pattern_all data pattern = .ok l ∧
      List.Pairwise (fun a b => a < b) l ∧
      ∀ i, i ∈ l ↔ occursAt data pattern i := by
  obtain ⟨hmem, hpw⟩ := findAllLoop_spec data pattern 0
  refine ⟨findAllLoop data pattern 0, ?_, hpw, ?_⟩
  · obtain ⟨i, hi⟩ := hex
    have hne := (hmem i).mpr ⟨Nat.zero_le i, hi⟩
    unfold find_pattern_all
    cases hl : findAllLoop data pattern 0 with
    | nil => rw [hl] at hne; cases hne
    | cons r rs => rfl
  · intro i
    rw [hmem i]
    constructor
    · exact fun h => h.2
    · exact fun h => ⟨Nat.zero_le i, h⟩

/-- `find_pattern_all` failure: no occurrence exists. -/
theorem find_pattern_all_eq_error_iff {data pattern : List Nat} :
    find_pattern_all data pattern = .error (.valueError (patternMsg pattern)) ↔
      ∀ j, ¬ occursAt data pattern j := by
  obtain ⟨hmem, -⟩ := findAllLoop_spec data pattern 0
  unfold find_pattern_all
  cases hl : findAllLoop data pattern 0 with
  | nil =>
    simp only [true_iff]
    intro j hocc
    have := (hmem j).mpr ⟨Nat.zero_le j, hocc⟩
    rw [hl] at this
    cases this
  | cons r rs =>
    constructor
    · intro h; cases h
    · intro hall
      have := (hmem r).mp (by rw [hl]; exact List.mem_cons_self r rs)
      exact absurd this.2 (hall r)

/-! ## Word-level helpers -/

/-- A two-byte nonnegative Python slice, determined by the two bytes. -/
theorem pySlice_two {data : List Nat} {s b1 b2 : Nat}
    (h1 : data[s]? = some b1) (h2 : data[s + 1]? = some b2) :
    pySlice data (s : Int) ((s : Int) + 2) = [b1, b2] := by
  have hs1 : s + 1 < data.length := by
    by_contra hge
    rw [List.getElem?_eq_none (by omega)] at h2
    cases h2
  unfold pySlice
  rw [if_neg (by omega), if_neg (by omega)]
  have e1 : (min (s : Int) (data.length : Int)).toNat = s := by omega
  have e2 : (min ((s : Int) + 2) (data.length : Int)).toNat = s + 2 := by omega
  rw [e1, e2]
  apply List.ext_getElem?
  intro n
  match n with
  | 0 =>
    rw [List.getElem?_drop, List.getElem?_take_of_lt (by omega)]
    simpa using h1
  | 1 =>
    rw [List.getElem?_drop, List.getElem?_take_of_lt (by omega)]
    simpa using h2
  | n + 2 =>
    rw [List.getElem?_drop, List.getElem?_eq_none
      (by simp only [List.length_take]; omega)]
    rw [List.getElem?_eq_none (by simp)]

/-- `read_le_word` at a nonnegative in-bounds offset decodes the two bytes. -/
theorem read_le_word_of_bytes {data : List Nat} {s b1 b2 : Nat}
    (h1 : data[s]? = some b1) (h2 : data[s + 1]? = some b2) :
    read_le_word data (s : Int) = .ok (b1 + 256 * b2) := by
  unfold read_le_word
  rw [pySlice_two h1 h2]

/-- `write_le_word` in bounds: shape of the result. -/
theorem write_le_word_ok {data : List Nat} {offset value : Nat}
    (hv : value < 65536) (hoff : offset + 2 ≤ data.length) :
    write_le_word data offset value =
      .ok (setSlice data offset [value % 256, value / 256] (offset + 2)) := by
  unfold write_le_word
  rw [if_pos ⟨hv, hoff⟩]

/-! ## Characterisation of the relocation encoder -/

/-- Inversion of a successful `patch_call`: the displacement was in the
unsigned 16-bit range and the emitted bytes are opcode, little-endian
displacement, and no-op filler. -/
theorem patch_call_ok_inv {data : List Nat} {loc w target : Nat} {out : List Nat}
    (h : patch_call data loc w target = .ok out) :
    ∃ d : Nat, (target : Int) - ((loc : Int) + 3) = (d : Int) ∧ d < 65536 ∧
      out = setSlice data loc
        (0xe8 :: ([d % 256, d / 256] ++ List.replicate (w - 3) 0x90)) (loc + w) := by
  unfold patch_call at h
  split at h
  · exact Except.noConfusion h
  · rename_i disp hcond
    unfold pack_le_word at hcond
    split at hcond
    · rename_i hrange
      rw [Except.ok.injEq] at hcond h
      refine ⟨((target : Int) - ((loc : Int) + 3)).toNat, by omega, by omega, ?_⟩
      rw [← h, ← hcond]
    · exact Except.noConfusion hcond

/-- Failure of `patch_call`: the displacement was outside `[0, 65535]` and
nothing was written. -/
theorem patch_call_eq_error_iff {data : List Nat} {loc w target : Nat} :
    patch_call data loc w target = .error .structError ↔
      ((target : Int) - ((loc : Int) + 3) < 0 ∨
        65536 ≤ (target : Int) - ((loc : Int) + 3)) := by
  unfold patch_call pack_le_word
  by_cases hr : 0 ≤ (target : Int) - ((loc : Int) + 3) ∧
      (target : Int) - ((loc : Int) + 3) < 65536
  · rw [if_pos hr]
    exact ⟨fun h => Except.noConfusion h, fun habs => by omega⟩
  · rw [if_neg hr]
    exact ⟨fun _ => by omega, fun _ => rfl⟩

/-! ## Step-level inversions and frame lemmas -/

/-- A byte offset lying outside the `w`-byte region starting at `lo`. -/
def outside (lo w i : Nat) : Prop := i < lo ∨ lo + w ≤ i

/-- Frame and length for one in-bounds slice write of width `w`. -/
theorem setSliceN_frame {gd : List Nat} {a w : Nat} {row : List Nat}
    (hrow : row.length = w) (hb : a + w ≤ gd.length) :
    (setSlice gd a row (a + w)).length = gd.length ∧
    ∀ i, outside a w i → (setSlice gd a row (a + w))[i]? = gd[i]? := by
  constructor
  · have h' := @setSlice_length gd a row (by rw [hrow]; exact hb)
    rwa [hrow] at h'
  · intro i hi
    rcases hi with hlt | hge
    · exact setSlice_getElem_lt (by omega) hlt
    · have h' := @setSlice_getElem_ge gd a i row (by omega) (by omega)
      rwa [hrow] at h'

/-- Length of the version-box rows. -/
theorem boxTop_length : boxTop.length = 16 := by decide

theorem boxBottom_length : boxBottom.length = 16 := by decide

theorem boxLine_length {l : List Nat} (h : l.length ≤ 14) : (boxLine l).length = 16 := by
  simp [boxLine]
  omega

/-- Frame and length of the version-box overwrite. -/
theorem patch_version_box_frame {gd : List Nat} {a1 a2 a3 a4 : Nat} {l1 l2 : List Nat}
    (hl1 : l1.length ≤ 14) (hl2 : l2.length ≤ 14)
    (h1 : a1 + 16 ≤ gd.length) (h2 : a2 + 16 ≤ gd.length)
    (h3 : a3 + 16 ≤ gd.length) (h4 : a4 + 16 ≤ gd.length) :
    (patch_version_box gd a1 a2 a3 a4 l1 l2).length = gd.length ∧
    ∀ i, outside a1 16 i → outside a2 16 i → outside a3 16 i → outside a4 16 i →
      (patch_version_box gd a1 a2 a3 a4 l1 l2)[i]? = gd[i]? := by
  unfold patch_version_box
  obtain ⟨len1, frame1⟩ :=
    @setSliceN_frame gd a1 16 boxTop boxTop_length h1
  obtain ⟨len2, frame2⟩ :=
    @setSliceN_frame (setSlice gd a1 boxTop (a1 + 16)) a2 16
      (boxLine l1) (boxLine_length hl1) (by omega)
  obtain ⟨len3, frame3⟩ :=
    @setSliceN_frame
      (setSlice (setSlice gd a1 boxTop (a1 + 16)) a2 (boxLine l1) (a2 + 16))
      a3 16 (boxLine l2) (boxLine_length hl2) (by omega)
  obtain ⟨len4, frame4⟩ :=
    @setSliceN_frame
      (setSlice (setSlice (setSlice gd a1 boxTop (a1 + 16)) a2 (boxLine l1)
        (a2 + 16)) a3 (boxLine l2) (a3 + 16))
      a4 16 boxBottom boxBottom_length (by omega)
  refine ⟨by omega, ?_⟩
  intro i hi1 hi2 hi3 hi4
  rw [frame4 i hi4, frame3 i hi3, frame2 i hi2, frame1 i hi1]

/-- Inversion of the version-box step. -/
theorem apply_version_box_ok_inv {gd gd1 : List Nat} {n : Nat}
    (h : apply_version_box gd n = .ok gd1) :
    (n = 0xEC00 ∧ gd1 = patch_version_box gd 0xE5A2 0xE5F1 0xE640 0xE68F
        (strBytes "Round 42 v1.0") (strBytes "Keyboard fix 1")) ∨
    (n = 0xF382 ∧ gd1 = patch_version_box gd 0xED21 0xED44 0xED93 0xEDE2
        (strBytes "Round-42 v2.0") (strBytes "Keyboard fix 1")) := by
  unfold apply_version_box at h
  split at h
  · rename_i hc
    exact Or.inl ⟨hc, (Except.ok.inj h).symm⟩
  · split at h
    · rename_i hc1 hc2
      exact Or.inr ⟨hc2, (Except.ok.inj h).symm⟩
    · exact Except.noConfusion h

/-- Inversion of the segment-fix step. -/
theorem apply_segment_fix_ok_inv {gd gd2 : List Nat} {plen vs : Nat}
    (h : apply_segment_fix gd plen vs = .ok gd2) :
    ∃ ds, read_le_word gd (DS_LOCATION : Int) = .ok ds ∧
      new_ds_value (ADDR_COM_LOAD + gd.length + plen + vs) ds < 65536 ∧
      DS_LOCATION + 2 ≤ gd.length ∧
      gd2 = setSlice gd DS_LOCATION
        [new_ds_value (ADDR_COM_LOAD + gd.length + plen + vs) ds % 256,
         new_ds_value (ADDR_COM_LOAD + gd.length + plen + vs) ds / 256]
        (DS_LOCATION + 2) := by
  unfold apply_segment_fix at h
  split at h
  · exact Except.noConfusion h
  · rename_i ds hds
    unfold write_le_word at h
    split at h
    · rename_i hcond
      exact ⟨ds, hds, hcond.1, hcond.2, (Except.ok.inj h).symm⟩
    · exact Except.noConfusion h

/-- Frame and length of a successful in-bounds `patch_call`. -/
theorem patch_call_frame {data out : List Nat} {loc w target : Nat}
    (h : patch_call data loc w target = .ok out)
    (hw : 3 ≤ w) (hbound : loc + w ≤ data.length) :
    out.length = data.length ∧ ∀ i, outside loc w i → out[i]? = data[i]? := by
  obtain ⟨d, hd, hdlt, rfl⟩ := patch_call_ok_inv h
  have hrepl : (0xe8 :: ([d % 256, d / 256] ++ List.replicate (w - 3) 0x90)).length = w := by
    simp
    omega
  constructor
  · have h' := @setSlice_length data loc
      (0xe8 :: ([d % 256, d / 256] ++ List.replicate (w - 3) 0x90))
      (by rw [hrepl]; exact hbound)
    rwa [hrepl] at h'
  · intro i hi
    rcases hi with hlt | hge
    · exact setSlice_getElem_lt (by omega) hlt
    · have h' := @setSlice_getElem_ge data loc i
        (0xe8 :: ([d % 256, d / 256] ++ List.replicate (w - 3) 0x90))
        (by omega) (by rw [hrepl]; omega)
      rwa [hrepl] at h'

/-- Inversion of the init-site step, with the site bound. -/
theorem patch_init_site_ok_inv {gd gd3 : List Nat} {addr : Nat}
    (h : patch_init_site gd addr = .ok gd3) :
    ∃ loc, find_pattern gd pattern_init_scancode = .ok loc ∧ loc + 3 ≤ gd.length ∧
      patch_call gd loc 3 addr = .ok gd3 := by
  unfold patch_init_site at h
  split at h
  · exact Except.noConfusion h
  · rename_i loc hloc
    have hocc := (find_pattern_eq_ok_iff.mp hloc).1
    have hb := occursAt_bound hocc
    have hlen : pattern_init_scancode.length = 3 := rfl
    exact ⟨loc, hloc, by omega, h⟩

/-- Inversion of the write-site step, with the site bound. -/
theorem patch_write_site_ok_inv {gd gd4 : List Nat} {addr : Nat}
    (h : patch_write_site gd addr = .ok gd4) :
    ∃ loc, find_pattern gd pattern_write_scancode = .ok loc ∧ loc + 4 ≤ gd.length ∧
      patch_call gd loc 4 addr = .ok gd4 := by
  unfold patch_write_site at h
  split at h
  · exact Except.noConfusion h
  · rename_i loc hloc
    have hocc := (find_pattern_eq_ok_iff.mp hloc).1
    have hb := occursAt_bound hocc
    have hlen : pattern_write_scancode.length = 4 := rfl
    exact ⟨loc, hloc, by omega, h⟩

/-- Inversion of the branch-site step: the call is placed 3 bytes past the
pattern start, with the site bound. -/
theorem patch_branch_site_ok_inv {gd gd6 : List Nat} {addr : Nat}
    (h : patch_branch_site gd addr = .ok gd6) :
    ∃ loc, find_pattern gd pattern_round_message = .ok loc ∧ loc + 6 ≤ gd.length ∧
      patch_call gd (loc + 3) 3 addr = .ok gd6 := by
  unfold patch_branch_site at h
  split at h
  · exact Except.noConfusion h
  · rename_i loc hloc
    have hocc := (find_pattern_eq_ok_iff.mp hloc).1
    have hb := occursAt_bound hocc
    have hlen : pattern_round_message.length = 6 := rfl
    exact ⟨loc, hloc, by omega, h⟩

/-- Frame and length of the read-sites loop. -/
theorem patch_calls_at_frame {addr : Nat} :
    ∀ {locs : List Nat} {data out : List Nat},
      patch_calls_at data locs addr = .ok out →
      (∀ loc, loc ∈ locs → loc + 3 ≤ data.length) →
      out.length = data.length ∧
        ∀ i, (∀ loc, loc ∈ locs → outside loc 3 i) → out[i]? = data[i]? := by
  intro locs
  induction locs with
  | nil =>
    intro data out h hb
    unfold patch_calls_at at h
    have : data = out := Except.ok.inj h
    subst this
    exact ⟨rfl, fun i _ => rfl⟩
  | cons loc rest ih =>
    intro data out h hb
    unfold patch_calls_at at h
    split at h
    · exact Except.noConfusion h
    · rename_i gd2 hgd2
      obtain ⟨len1, frame1⟩ := patch_call_frame hgd2 (by omega)
        (hb loc (List.mem_cons_self loc rest))
      obtain ⟨len2, frame2⟩ := ih h
        (fun l hl => by rw [len1]; exact hb l (List.mem_cons_of_mem loc hl))
      refine ⟨by omega, ?_⟩
      intro i hi
      rw [frame2 i (fun l hl => hi l (List.mem_cons_of_mem loc hl)),
        frame1 i (hi loc (List.mem_cons_self loc rest))]

/-- Inversion of the read-sites step: the located offsets are exactly the
occurrences of the read pattern, each in bounds. -/
theorem patch_read_sites_ok_inv {gd gd5 : List Nat} {addr : Nat}
    (h : patch_read_sites gd addr = .ok gd5) :
    ∃ locs, find_pattern_all gd pattern_read_scancode = .ok locs ∧
      (∀ loc, loc ∈ locs → loc + 3 ≤ gd.length) ∧
      patch_calls_at gd locs addr = .ok gd5 := by
  unfold patch_read_sites at h
  split at h
  · exact Except.noConfusion h
  · rename_i locs hlocs
    refine ⟨locs, hlocs, ?_, h⟩
    intro loc hloc
    obtain ⟨hmem, -⟩ := findAllLoop_spec gd pattern_read_scancode 0
    unfold find_pattern_all at hlocs
    have hocc : occursAt gd pattern_read_scancode loc := by
      cases hl : findAllLoop gd pattern_read_scancode 0 with
      | nil => rw [hl] at hlocs; exact Except.noConfusion hlocs
      | cons r rs =>
        rw [hl] at hlocs
        have := Except.ok.inj hlocs
        have hmem2 := (hmem loc).mp (by rw [hl, this]; exact hloc)
        exact hmem2.2
    have hb := occursAt_bound hocc
    have hlen : pattern_read_scancode.length = 3 := rfl
    omega

/-- Inversion of the up-flag increment. -/
theorem bump_up_flag_ok_inv {gd gd7 : List Nat}
    (h : bump_up_flag gd = .ok gd7) :
    ∃ loc b, find_pattern gd pattern_read_up_flag = .ok loc ∧ gd[loc + 7]? = some b ∧
      b + 1 < 256 ∧ gd7 = gd.set (loc + 7) (b + 1) := by
  unfold bump_up_flag at h
  split at h
  · exact Except.noConfusion h
  · rename_i loc hloc
    split at h
    · exact Except.noConfusion h
    · rename_i b hb
      split at h
      · rename_i hlt
        exact ⟨loc, b, hloc, hb, hlt, (Except.ok.inj h).symm⟩
      · exact Except.noConfusion h

/-- Concrete lengths of the caption byte strings. -/
theorem strBytes_v1_line1_length : (strBytes "Round 42 v1.0").length = 13 := rfl

theorem strBytes_v1_line2_length : (strBytes "Keyboard fix 1").length = 14 := rfl

theorem strBytes_v2_line1_length : (strBytes "Round-42 v2.0").length = 13 := rfl

/-- Shared tail of the master success analysis: from the version-box frame
facts onward. -/
theorem patch_game_ok_full_aux {img out blob gd1 gd2 gd3 gd4 gd5 gd6 gd7 : List Nat}
    {vars aReset aPut aGet aRound a1 a2 a3 a4 : Nat}
    (hlen1 : gd1.length = img.length)
    (hframe1 : ∀ i, outside a1 16 i → outside a2 16 i → outside a3 16 i →
      outside a4 16 i → gd1[i]? = img[i]?)
    (hseg : apply_segment_fix gd1 blob.length vars = .ok gd2)
    (hinit : patch_init_site gd2 aReset = .ok gd3)
    (hwrite : patch_write_site gd3 aPut = .ok gd4)
    (hreads : patch_read_sites gd4 aGet = .ok gd5)
    (hbranch : patch_branch_site gd5 aRound = .ok gd6)
    (hbump : bump_up_flag gd6 = .ok gd7)
    (hout : out = gd7 ++ blob) :
    ∃ locI locW rlocs locR locU byteU,
      find_pattern gd2 pattern_init_scancode = .ok locI ∧
      find_pattern gd3 pattern_write_scancode = .ok locW ∧
      find_pattern_all gd4 pattern_read_scancode = .ok rlocs ∧
      find_pattern gd5 pattern_round_message = .ok locR ∧
      find_pattern gd6 pattern_read_up_flag = .ok locU ∧
      gd6[locU + 7]? = some byteU ∧ byteU + 1 < 256 ∧
      gd7.length = img.length ∧
      out.length = img.length + blob.length ∧
      (∀ i, i < img.length →
        outside a1 16 i → outside a2 16 i → outside a3 16 i → outside a4 16 i →
        outside DS_LOCATION 2 i →
        outside locI 3 i → outside locW 4 i →
        (∀ r, r ∈ rlocs → outside r 3 i) →
        outside (locR + 3) 3 i →
        i ≠ locU + 7 →
        out[i]? = img[i]?) := by
  obtain ⟨ds, hds, hdslt, hdsbound, hgd2⟩ := apply_segment_fix_ok_inv hseg
  have hsegframe := @setSliceN_frame gd1 DS_LOCATION 2
    [new_ds_value (ADDR_COM_LOAD + gd1.length + blob.length + vars) ds % 256,
      new_ds_value (ADDR_COM_LOAD + gd1.length + blob.length + vars) ds / 256]
    rfl hdsbound
  rw [← hgd2] at hsegframe
  obtain ⟨hlen2, hframe2⟩ := hsegframe
  obtain ⟨locI, hlocI, hbI, hcallI⟩ := patch_init_site_ok_inv hinit
  obtain ⟨hlen3, hframe3⟩ := patch_call_frame hcallI (by omega) hbI
  obtain ⟨locW, hlocW, hbW, hcallW⟩ := patch_write_site_ok_inv hwrite
  obtain ⟨hlen4, hframe4⟩ := patch_call_frame hcallW (by omega) hbW
  obtain ⟨rlocs, hrlocs, hbR, hcallsR⟩ := patch_read_sites_ok_inv hreads
  obtain ⟨hlen5, hframe5⟩ := patch_calls_at_frame hcallsR hbR
  obtain ⟨locR, hlocR, hbB, hcallB⟩ := patch_branch_site_ok_inv hbranch
  obtain ⟨hlen6, hframe6⟩ := patch_call_frame hcallB (by omega) (by omega)
  obtain ⟨locU, byteU, hlocU, hbyteU, hbumplt, hgd7⟩ := bump_up_flag_ok_inv hbump
  have hlen7 : gd7.length = gd6.length := by rw [hgd7]; exact List.length_set gd6 _ _
  have hlenAll : gd7.length = img.length := by omega
  refine ⟨locI, locW, rlocs, locR, locU, byteU,
    hlocI, hlocW, hrlocs, hlocR, hlocU, hbyteU, hbumplt, hlenAll, ?_, ?_⟩
  · rw [hout]
    simp only [List.length_append]
    omega
  · intro i hi ho1 ho2 ho3 ho4 hoDS hoI hoW hoR hoB hoU
    have e7 : gd7[i]? = gd6[i]? := by
      rw [hgd7]
      exact List.getElem?_set_ne (by omega)
    have eOut : out[i]? = gd7[i]? := by
      rw [hout]
      exact List.getElem?_append_left (by omega)
    rw [eOut, e7, hframe6 i hoB, hframe5 i hoR, hframe4 i hoW, hframe3 i hoI,
      hframe2 i hoDS, hframe1 i ho1 ho2 ho3 ho4]

/-- Master analysis of a successful run: every located site, the length
bookkeeping, and the frame property of the produced output. -/
theorem patch_game_ok_full {img out : List Nat} {b : Nat → Nat → Option (List Nat)}
    {tr : List Event}
    (h : patch_game img b = (tr, Except.ok out)) :
    ∃ kh blob gd1 vars aReset aPut aGet aRound gd2 gd3 gd4 gd5 gd6 gd7
      a1 a2 a3 a4 locI locW rlocs locR locU byteU,
      find_pattern img pattern_key_handler = .ok kh ∧
      b img.length (kh + ADDR_COM_LOAD) = some blob ∧
      apply_version_box img img.length = .ok gd1 ∧
      ((img.length = 0xEC00 ∧ a1 = 0xE5A2 ∧ a2 = 0xE5F1 ∧ a3 = 0xE640 ∧ a4 = 0xE68F) ∨
        (img.length = 0xF382 ∧ a1 = 0xED21 ∧ a2 = 0xED44 ∧ a3 = 0xED93 ∧ a4 = 0xEDE2)) ∧
      read_footer blob = .ok (vars, aReset, aPut, aGet, aRound) ∧
      apply_segment_fix gd1 blob.length vars = .ok gd2 ∧
      patch_init_site gd2 aReset = .ok gd3 ∧
      patch_write_site gd3 aPut = .ok gd4 ∧
      patch_read_sites gd4 aGet = .ok gd5 ∧
      patch_branch_site gd5 aRound = .ok gd6 ∧
      bump_up_flag gd6 = .ok gd7 ∧
      find_pattern gd2 pattern_init_scancode = .ok locI ∧
      find_pattern gd3 pattern_write_scancode = .ok locW ∧
      find_pattern_all gd4 pattern_read_scancode = .ok rlocs ∧
      find_pattern gd5 pattern_round_message = .ok locR ∧
      find_pattern gd6 pattern_read_up_flag = .ok locU ∧
      gd6[locU + 7]? = some byteU ∧ byteU + 1 < 256 ∧
      gd7.length = img.length ∧
      out = gd7 ++ blob ∧
      tr = canonicalTrace ∧
      out.length = img.length + blob.length ∧
      (∀ i, i < img.length →
        outside a1 16 i → outside a2 16 i → outside a3 16 i → outside a4 16 i →
        outside DS_LOCATION 2 i →
        outside locI 3 i → outside locW 4 i →
        (∀ r, r ∈ rlocs → outside r 3 i) →
        outside (locR + 3) 3 i →
        i ≠ locU + 7 →
        out[i]? = img[i]?) := by
  obtain ⟨kh, blob, gd1, vars, aReset, aPut, aGet, aRound, gd2, gd3, gd4, gd5, gd6, gd7,
    hkh, hblob, hbox, hfoot, hseg, hinit, hwrite, hreads, hbranch, hbump, hout, htr⟩ :=
    patch_game_ok_inv h
  obtain hv1 | hv2 := apply_version_box_ok_inv hbox
  · obtain ⟨hsize, hgd1⟩ := hv1
    have hboxframe := @patch_version_box_frame
      img 0xE5A2 0xE5F1 0xE640 0xE68F
      (strBytes "Round 42 v1.0") (strBytes "Keyboard fix 1")
      (by rw [strBytes_v1_line1_length]; norm_num)
      (by rw [strBytes_v1_line2_length])
      (by rw [hsize]; norm_num) (by rw [hsize]; norm_num)
      (by rw [hsize]; norm_num) (by rw [hsize]; norm_num)
    rw [← hgd1] at hboxframe
    obtain ⟨hlen1, hframe1⟩ := hboxframe
    obtain ⟨locI, locW, rlocs, locR, locU, byteU, hlocI, hlocW, hrlocs, hlocR, hlocU,
      hbyteU, hbumplt, hlenAll, houtlen, hframe⟩ :=
      patch_game_ok_full_aux hlen1 hframe1 hseg hinit hwrite hreads hbranch hbump hout
    exact ⟨kh, blob, gd1, vars, aReset, aPut, aGet, aRound, gd2, gd3, gd4, gd5, gd6, gd7,
      0xE5A2, 0xE5F1, 0xE640, 0xE68F, locI, locW, rlocs, locR, locU, byteU,
      hkh, hblob, hbox, Or.inl ⟨hsize, rfl, rfl, rfl, rfl⟩, hfoot, hseg, hinit, hwrite,
      hreads, hbranch, hbump, hlocI, hlocW, hrlocs, hlocR, hlocU, hbyteU, hbumplt,
      hlenAll, hout, htr, houtlen, hframe⟩
  · obtain ⟨hsize, hgd1⟩ := hv2
    have hboxframe := @patch_version_box_frame
      img 0xED21 0xED44 0xED93 0xEDE2
      (strBytes "Round-42 v2.0") (strBytes "Keyboard fix 1")
      (by rw [strBytes_v2_line1_length]; norm_num)
      (by rw [strBytes_v1_line2_length])
      (by rw [hsize]; norm_num) (by rw [hsize]; norm_num)
      (by rw [hsize]; norm_num) (by rw [hsize]; norm_num)
    rw [← hgd1] at hboxframe
    obtain ⟨hlen1, hframe1⟩ := hboxframe
    obtain ⟨locI, locW, rlocs, locR, locU, byteU, hlocI, hlocW, hrlocs, hlocR, hlocU,
      hbyteU, hbumplt, hlenAll, houtlen, hframe⟩ :=
      patch_game_ok_full_aux hlen1 hframe1 hseg hinit hwrite hreads hbranch hbump hout
    exact ⟨kh, blob, gd1, vars, aReset, aPut, aGet, aRound, gd2, gd3, gd4, gd5, gd6, gd7,
      0xED21, 0xED44, 0xED93, 0xEDE2, locI, locW, rlocs, locR, locU, byteU,
      hkh, hblob, hbox, Or.inr ⟨hsize, rfl, rfl, rfl, rfl⟩, hfoot, hseg, hinit, hwrite,
      hreads, hbranch, hbump, hlocI, hlocW, hrlocs, hlocR, hlocU, hbyteU, hbumplt,
      hlenAll, hout, htr, houtlen, hframe⟩

/-- Each byte of a slice assignment comes positionally from the original data
or is a byte of the replacement. -/
theorem setSlice_getElem_value {data repl : List Nat} {s w i : Nat}
    (hs : s ≤ data.length) (hw : repl.length = w) :
    (setSlice data s repl (s + w))[i]? = data[i]? ∨
    ∃ v, (setSlice data s repl (s + w))[i]? = some v ∧ v ∈ repl := by
  by_cases h1 : i < s
  · exact Or.inl (setSlice_getElem_lt hs h1)
  by_cases h2 : i < s + w
  · right
    have hm := @setSlice_getElem_mid data s (s + w) (i - s) repl hs (by omega)
    have he : s + (i - s) = i := by omega
    rw [he] at hm
    cases hv : repl[i - s]? with
    | none =>
      rw [List.getElem?_eq_none_iff] at hv
      omega
    | some v =>
      exact ⟨v, by rw [hm, hv], List.getElem?_mem hv⟩
  · left
    have h' := @setSlice_getElem_ge data s i repl hs (by omega)
    rwa [hw] at h'

/-! ## A concrete successful run

A synthetic version-1.0 image: all patch.py patterns placed in the first 26
bytes, the rest zero, with total size 0xEC00 (the v1.0 size).  The builder
stub returns a 10-byte blob that is exactly the footer: zero variable space,
and entry addresses chosen so that each emitted call displacement is
0x9090. -/

/-- First 26 bytes of the synthetic image: key-handler pattern, init-scancode
pattern, write-scancode pattern, round-message pattern, read-up-flag
pattern. -/
def cHead : List Nat :=
  [0x55, 0x8b, 0xec, 0x55, 0xe9, 0x00, 0x00, 0xa1, 0x9e, 0x0f,
   0xa3, 0x9e, 0x0f,
   0x89, 0x1e, 0x9e, 0x0f,
   0xe9, 0xa7, 0x01, 0xb9, 0x08, 0x00,
   0xa0, 0x66, 0x0c]

/-- The synthetic input image, of recognised v1.0 size 0xEC00. -/
def cImg : List Nat := cHead ++ List.replicate 60390 0

/-- The builder blob: a bare 10-byte footer with variables size 0 and entry
addresses 0x909D, 0x90A0, 0x909A, 0x90A7. -/
def cFooter : List Nat :=
  [0x00, 0x00, 0x9d, 0x90, 0xa0, 0x90, 0x9a, 0x90, 0xa7, 0x90]

/-- The builder stub: always succeeds with the footer blob. -/
def cBuilder : Nat → Nat → Option (List Nat) := fun _ _ => some cFooter

/-- Intermediate images of the successful run on `cImg`. -/
def cG1 : List Nat :=
  patch_version_box cImg 0xE5A2 0xE5F1 0xE640 0xE68F
    (strBytes "Round 42 v1.0") (strBytes "Keyboard fix 1")

def cG2 : List Nat := setSlice cG1 DS_LOCATION [209, 14] (DS_LOCATION + 2)

def cG3 : List Nat := setSlice cG2 10 [0xe8, 0x90, 0x90] (10 + 3)

def cG4 : List Nat := setSlice cG3 13 [0xe8, 0x90, 0x90, 0x90] (13 + 4)

def cG5 : List Nat := setSlice cG4 7 [0xe8, 0x90, 0x90] (7 + 3)

def cG6 : List Nat := setSlice cG5 20 [0xe8, 0x90, 0x90] (20 + 3)

def cG7 : List Nat := cG6.set 30 1

/-- The bytes of the output file of the successful run. -/
def cOut : List Nat := cG7 ++ cFooter

theorem cImg_length : cImg.length = 60416 := by
  rw [cImg, List.length_append, List.length_replicate]
  rfl

/-- First 31 bytes of `cImg` (the 26 placed bytes and five zeros). -/
def hdA : List Nat :=
  [0x55, 0x8b, 0xec, 0x55, 0xe9, 0x00, 0x00, 0xa1, 0x9e, 0x0f,
   0xa3, 0x9e, 0x0f, 0x89, 0x1e, 0x9e, 0x0f, 0xe9, 0xa7, 0x01,
   0xb9, 0x08, 0x00, 0xa0, 0x66, 0x0c, 0, 0, 0, 0, 0]

/-- `hdA` after the init-site patch at offsets 10-12. -/
def hdB : List Nat :=
  [0x55, 0x8b, 0xec, 0x55, 0xe9, 0x00, 0x00, 0xa1, 0x9e, 0x0f,
   0xe8, 0x90, 0x90, 0x89, 0x1e, 0x9e, 0x0f, 0xe9, 0xa7, 0x01,
   0xb9, 0x08, 0x00, 0xa0, 0x66, 0x0c, 0, 0, 0, 0, 0]

/-- `hdB` after the write-site patch at offsets 13-16. -/
def hdC : List Nat :=
  [0x55, 0x8b, 0xec, 0x55, 0xe9, 0x00, 0x00, 0xa1, 0x9e, 0x0f,
   0xe8, 0x90, 0x90, 0xe8, 0x90, 0x90, 0x90, 0xe9, 0xa7, 0x01,
   0xb9, 0x08, 0x00, 0xa0, 0x66, 0x0c, 0, 0, 0, 0, 0]

/-- `hdC` after the read-site patch at offsets 7-9. -/
def hdD : List Nat :=
  [0x55, 0x8b, 0xec, 0x55, 0xe9, 0x00, 0x00, 0xe8, 0x90, 0x90,
   0xe8, 0x90, 0x90, 0xe8, 0x90, 0x90, 0x90, 0xe9, 0xa7, 0x01,
   0xb9, 0x08, 0x00, 0xa0, 0x66, 0x0c, 0, 0, 0, 0, 0]

/-- `hdD` after the branch-site patch at offsets 20-22. -/
def hdE : List Nat :=
  [0x55, 0x8b, 0xec, 0x55, 0xe9, 0x00, 0x00, 0xe8, 0x90, 0x90,
   0xe8, 0x90, 0x90, 0xe8, 0x90, 0x90, 0x90, 0xe9, 0xa7, 0x01,
   0xe8, 0x90, 0x90, 0xa0, 0x66, 0x0c, 0, 0, 0, 0, 0]

theorem cImg_head : ∀ i, i < 31 → cImg[i]? = hdA[i]? := by
  intro i hi
  by_cases h26 : i < 26
  · rw [cImg, List.getElem?_append_left (by rw [show cHead.length = 26 from rfl]; omega)]
    interval_cases i <;> rfl
  · rw [cImg, List.getElem?_append_right (by rw [show cHead.length = 26 from rfl]; omega),
      show cHead.length = 26 from rfl, List.getElem?_replicate, if_pos (by omega)]
    interval_cases i <;> rfl

theorem cImg_tail_zero : ∀ i, 26 ≤ i → i < 60416 → cImg[i]? = some 0 := by
  intro i h1 h2
  rw [cImg, List.getElem?_append_right (by rw [show cHead.length = 26 from rfl]; omega),
    List.getElem?_replicate]
  rw [if_pos (by rw [show cHead.length = 26 from rfl]; omega)]

theorem box_step : apply_version_box cImg cImg.length = .ok cG1 := by
  unfold apply_version_box
  rw [cImg_length]
  rfl

theorem cG1_facts :
    cG1.length = 60416 ∧
    ∀ i, outside 0xE5A2 16 i → outside 0xE5F1 16 i → outside 0xE640 16 i →
      outside 0xE68F 16 i → cG1[i]? = cImg[i]? := by
  have h := @patch_version_box_frame cImg
    0xE5A2 0xE5F1 0xE640 0xE68F
    (strBytes "Round 42 v1.0") (strBytes "Keyboard fix 1")
    (by rw [strBytes_v1_line1_length]; norm_num) (by rw [strBytes_v1_line2_length])
    (by rw [cImg_length]; norm_num) (by rw [cImg_length]; norm_num)
    (by rw [cImg_length]; norm_num) (by rw [cImg_length]; norm_num)
  exact ⟨by rw [show cG1.length = (patch_version_box cImg 0xE5A2 0xE5F1 0xE640 0xE68F
      (strBytes "Round 42 v1.0") (strBytes "Keyboard fix 1")).length from rfl, h.1,
      cImg_length], h.2⟩

theorem cG1_length : cG1.length = 60416 := cG1_facts.1

theorem cG1_head : ∀ i, i < 31 → cG1[i]? = hdA[i]? := by
  intro i hi
  rw [cG1_facts.2 i (by unfold outside; omega) (by unfold outside; omega)
    (by unfold outside; omega) (by unfold outside; omega)]
  exact cImg_head i hi

theorem cG1_ds_bytes : cG1[11199]? = some 0 ∧ cG1[11200]? = some 0 := by
  constructor
  · rw [cG1_facts.2 11199 (by unfold outside; omega) (by unfold outside; omega)
      (by unfold outside; omega) (by unfold outside; omega)]
    exact cImg_tail_zero 11199 (by omega) (by omega)
  · rw [cG1_facts.2 11200 (by unfold outside; omega) (by unfold outside; omega)
      (by unfold outside; omega) (by unfold outside; omega)]
    exact cImg_tail_zero 11200 (by omega) (by omega)

theorem cG1_not_a1 : ∀ i, 31 ≤ i → cG1[i]? ≠ some 0xa1 := by
  intro i hi
  have l0 : cImg.length = 60416 := cImg_length
  show (patch_version_box cImg 0xE5A2 0xE5F1 0xE640 0xE68F
    (strBytes "Round 42 v1.0") (strBytes "Keyboard fix 1"))[i]? ≠ some 0xa1
  unfold patch_version_box
  set s1 := setSlice cImg 0xE5A2 boxTop (0xE5A2 + 16) with hs1
  set s2 := setSlice s1 0xE5F1 (boxLine (strBytes "Round 42 v1.0")) (0xE5F1 + 16) with hs2
  set s3 := setSlice s2 0xE640 (boxLine (strBytes "Keyboard fix 1")) (0xE640 + 16) with hs3
  have l1 : s1.length = 60416 := by
    rw [hs1, (@setSliceN_frame cImg 0xE5A2 16 boxTop
      boxTop_length (by omega)).1, l0]
  have l2 : s2.length = 60416 := by
    rw [hs2, (@setSliceN_frame s1 0xE5F1 16
      (boxLine (strBytes "Round 42 v1.0"))
      (boxLine_length (by rw [strBytes_v1_line1_length]; norm_num)) (by omega)).1, l1]
  have l3 : s3.length = 60416 := by
    rw [hs3, (@setSliceN_frame s2 0xE640 16
      (boxLine (strBytes "Keyboard fix 1"))
      (boxLine_length (by rw [strBytes_v1_line2_length])) (by omega)).1, l2]
  rcases @setSlice_getElem_value s3 boxBottom 0xE68F 16 i
      (by omega) boxBottom_length with h4 | ⟨v, hv, hmem⟩
  · rw [h4, hs3]
    rcases @setSlice_getElem_value s2 (boxLine (strBytes "Keyboard fix 1")) 0xE640 16 i
        (by omega)
        (boxLine_length (by rw [strBytes_v1_line2_length])) with h3 | ⟨v, hv, hmem⟩
    · rw [h3, hs2]
      rcases @setSlice_getElem_value s1 (boxLine (strBytes "Round 42 v1.0")) 0xE5F1 16 i
          (by omega)
          (boxLine_length (by rw [strBytes_v1_line1_length]; norm_num)) with
        h2 | ⟨v, hv, hmem⟩
      · rw [h2, hs1]
        rcases @setSlice_getElem_value cImg boxTop 0xE5A2 16 i
            (by omega) boxTop_length with h1 | ⟨v, hv, hmem⟩
        · rw [h1]
          by_cases hlen : i < 60416
          · rw [cImg_tail_zero i (by omega) hlen]
            intro hcon
            cases hcon
          · rw [List.getElem?_eq_none (by omega)]
            intro hcon
            cases hcon
        · rw [hv]
          intro hcon
          cases hcon
          exact absurd hmem (by decide)
      · rw [hv]
        intro hcon
        cases hcon
        exact absurd hmem (by decide)
    · rw [hv]
      intro hcon
      cases hcon
      exact absurd hmem (by decide)
  · rw [hv]
    intro hcon
    cases hcon
    exact absurd hmem (by decide)

theorem cG1_ds_read : read_le_word cG1 (DS_LOCATION : Int) = .ok 0 := by
  have h := @read_le_word_of_bytes cG1 11199 0 0
    cG1_ds_bytes.1 (by rw [show (11199 : Nat) + 1 = 11200 from rfl]; exact cG1_ds_bytes.2)
  rw [show (DS_LOCATION : Nat) = 11199 from rfl]
  simpa using h

/-- Constructor form of a successful segment fix (kept abstract so that
instantiating it at concrete images stays cheap). -/
theorem apply_segment_fix_eq_ok {gd g2 : List Nat} {plen vs ds : Nat}
    (hds : read_le_word gd (DS_LOCATION : Int) = .ok ds)
    (hw : write_le_word gd DS_LOCATION
      (new_ds_value (ADDR_COM_LOAD + gd.length + plen + vs) ds) = .ok g2) :
    apply_segment_fix gd plen vs = .ok g2 := by
  unfold apply_segment_fix
  rw [hds]
  exact hw

theorem seg_step : apply_segment_fix cG1 cFooter.length 0 = .ok cG2 := by
  apply apply_segment_fix_eq_ok cG1_ds_read
  rw [cG1_length, show cFooter.length = 10 from rfl, show ADDR_COM_LOAD = 256 from rfl]
  rw [show (256 : Nat) + 60416 + 10 + 0 = 60682 from rfl]
  rw [show new_ds_value 60682 0 = 3793 from rfl]
  rw [write_le_word_ok (by norm_num) (by rw [cG1_length]; norm_num [DS_LOCATION])]
  rfl

theorem cG2_facts :
    cG2.length = 60416 ∧ ∀ i, outside DS_LOCATION 2 i → cG2[i]? = cG1[i]? := by
  have h := @setSliceN_frame cG1 DS_LOCATION 2
    [209, 14] rfl (by rw [cG1_length]; norm_num [DS_LOCATION])
  exact ⟨by rw [show cG2.length = (setSlice cG1 DS_LOCATION [209, 14]
    (DS_LOCATION + 2)).length from rfl, h.1, cG1_length], h.2⟩

theorem cG2_length : cG2.length = 60416 := cG2_facts.1

theorem cG2_head : ∀ i, i < 31 → cG2[i]? = hdA[i]? := by
  intro i hi
  rw [cG2_facts.2 i (by unfold outside; norm_num [DS_LOCATION]; omega)]
  exact cG1_head i hi

theorem cG2_not_a1 : ∀ i, 31 ≤ i → cG2[i]? ≠ some 0xa1 := by
  intro i hi
  rcases @setSlice_getElem_value cG1 [209, 14] DS_LOCATION 2 i
      (by rw [cG1_length]; norm_num [DS_LOCATION])
      rfl with h | ⟨v, hv, hmem⟩
  · rw [show cG2[i]? = (setSlice cG1 DS_LOCATION [209, 14] (DS_LOCATION + 2))[i]?
      from rfl, h]
    exact cG1_not_a1 i hi
  · rw [show cG2[i]? = (setSlice cG1 DS_LOCATION [209, 14] (DS_LOCATION + 2))[i]?
      from rfl, hv]
    intro hcon
    cases hcon
    exact absurd hmem (by decide)

theorem cG3_facts :
    cG3.length = 60416 ∧ ∀ i, outside 10 3 i → cG3[i]? = cG2[i]? := by
  have h := @setSliceN_frame cG2 10 3
    [0xe8, 0x90, 0x90] rfl (by rw [cG2_length]; norm_num)
  exact ⟨by rw [show cG3.length =
    (setSlice cG2 10 [0xe8, 0x90, 0x90] (10 + 3)).length from rfl, h.1, cG2_length], h.2⟩

theorem cG3_head : ∀ i, i < 31 → cG3[i]? = hdB[i]? := by
  intro i hi
  by_cases hin : 10 ≤ i ∧ i < 13
  · obtain ⟨hin1, hin2⟩ := hin
    have hm := @setSlice_getElem_mid cG2 10 (10 + 3) (i - 10)
      [0xe8, 0x90, 0x90] (by rw [cG2_length]; norm_num)
      (by simp only [List.length_cons, List.length_nil]; omega)
    rw [show 10 + (i - 10) = i from by omega] at hm
    rw [show cG3[i]? = (setSlice cG2 10 [0xe8, 0x90, 0x90] (10 + 3))[i]? from rfl, hm]
    interval_cases i <;> rfl
  · rw [cG3_facts.2 i (by unfold outside; omega), cG2_head i hi]
    have hne : i < 10 ∨ 13 ≤ i := by omega
    interval_cases i <;> first | rfl | omega

theorem cG4_facts :
    cG4.length = 60416 ∧ ∀ i, outside 13 4 i → cG4[i]? = cG3[i]? := by
  have h := @setSliceN_frame cG3 13 4
    [0xe8, 0x90, 0x90, 0x90] rfl (by rw [cG3_facts.1]; norm_num)
  exact ⟨by rw [show cG4.length =
    (setSlice cG3 13 [0xe8, 0x90, 0x90, 0x90] (13 + 4)).length from rfl, h.1,
    cG3_facts.1], h.2⟩

theorem cG4_head : ∀ i, i < 31 → cG4[i]? = hdC[i]? := by
  intro i hi
  by_cases hin : 13 ≤ i ∧ i < 17
  · obtain ⟨hin1, hin2⟩ := hin
    have hm := @setSlice_getElem_mid cG3 13 (13 + 4) (i - 13)
      [0xe8, 0x90, 0x90, 0x90] (by rw [cG3_facts.1]; norm_num)
      (by simp only [List.length_cons, List.length_nil]; omega)
    rw [show 13 + (i - 13) = i from by omega] at hm
    rw [show cG4[i]? = (setSlice cG3 13 [0xe8, 0x90, 0x90, 0x90] (13 + 4))[i]? from rfl,
      hm]
    interval_cases i <;> rfl
  · rw [cG4_facts.2 i (by unfold outside; omega), cG3_head i hi]
    have hne : i < 13 ∨ 17 ≤ i := by omega
    interval_cases i <;> first | rfl | omega

theorem cG4_not_a1 : ∀ i, 31 ≤ i → cG4[i]? ≠ some 0xa1 := by
  intro i hi
  rw [cG4_facts.2 i (by unfold outside; omega), cG3_facts.2 i (by unfold outside; omega)]
  exact cG2_not_a1 i hi

theorem cG5_facts :
    cG5.length = 60416 ∧ ∀ i, outside 7 3 i → cG5[i]? = cG4[i]? := by
  have h := @setSliceN_frame cG4 7 3
    [0xe8, 0x90, 0x90] rfl (by rw [cG4_facts.1]; norm_num)
  exact ⟨by rw [show cG5.length =
    (setSlice cG4 7 [0xe8, 0x90, 0x90] (7 + 3)).length from rfl, h.1, cG4_facts.1], h.2⟩

theorem cG5_head : ∀ i, i < 31 → cG5[i]? = hdD[i]? := by
  intro i hi
  by_cases hin : 7 ≤ i ∧ i < 10
  · obtain ⟨hin1, hin2⟩ := hin
    have hm := @setSlice_getElem_mid cG4 7 (7 + 3) (i - 7)
      [0xe8, 0x90, 0x90] (by rw [cG4_facts.1]; norm_num)
      (by simp only [List.length_cons, List.length_nil]; omega)
    rw [show 7 + (i - 7) = i from by omega] at hm
    rw [show cG5[i]? = (setSlice cG4 7 [0xe8, 0x90, 0x90] (7 + 3))[i]? from rfl, hm]
    interval_cases i <;> rfl
  · rw [cG5_facts.2 i (by unfold outside; omega), cG4_head i hi]
    have hne : i < 7 ∨ 10 ≤ i := by omega
    interval_cases i <;> first | rfl | omega

theorem cG6_facts :
    cG6.length = 60416 ∧ ∀ i, outside 20 3 i → cG6[i]? = cG5[i]? := by
  have h := @setSliceN_frame cG5 20 3
    [0xe8, 0x90, 0x90] rfl (by rw [cG5_facts.1]; norm_num)
  exact ⟨by rw [show cG6.length =
    (setSlice cG5 20 [0xe8, 0x90, 0x90] (20 + 3)).length from rfl, h.1, cG5_facts.1], h.2⟩

theorem cG6_head : ∀ i, i < 31 → cG6[i]? = hdE[i]? := by
  intro i hi
  by_cases hin : 20 ≤ i ∧ i < 23
  · obtain ⟨hin1, hin2⟩ := hin
    have hm := @setSlice_getElem_mid cG5 20 (20 + 3) (i - 20)
      [0xe8, 0x90, 0x90] (by rw [cG5_facts.1]; norm_num)
      (by simp only [List.length_cons, List.length_nil]; omega)
    rw [show 20 + (i - 20) = i from by omega] at hm
    rw [show cG6[i]? = (setSlice cG5 20 [0xe8, 0x90, 0x90] (20 + 3))[i]? from rfl, hm]
    interval_cases i <;> rfl
  · rw [cG6_facts.2 i (by unfold outside; omega), cG5_head i hi]
    have hne : i < 20 ∨ 23 ≤ i := by omega
    interval_cases i <;> first | rfl | omega

theorem cfind_key : find_pattern cImg pattern_key_handler = .ok 0 := by
  apply find_pattern_eq_ok_iff.mpr
  refine ⟨?_, fun j hj => absurd hj (by omega)⟩
  apply occursAt_iff_getElem.mpr
  refine ⟨by rw [show pattern_key_handler.length = 10 from rfl, cImg_length]; norm_num, ?_⟩
  intro k hk
  rw [show pattern_key_handler.length = 10 from rfl] at hk
  rw [Nat.zero_add, cImg_head k (by omega)]
  interval_cases k <;> rfl

theorem cfind_init : find_pattern cG2 pattern_init_scancode = .ok 10 := by
  apply find_pattern_eq_ok_iff.mpr
  constructor
  · apply occursAt_iff_getElem.mpr
    refine ⟨by rw [show pattern_init_scancode.length = 3 from rfl, cG2_length]; norm_num,
      ?_⟩
    intro k hk
    rw [show pattern_init_scancode.length = 3 from rfl] at hk
    rw [cG2_head (10 + k) (by omega)]
    interval_cases k <;> rfl
  · intro j hj
    apply not_occursAt_of_getElem_ne (k := 0)
      (by rw [show pattern_init_scancode.length = 3 from rfl]; omega)
    rw [Nat.add_zero, cG2_head j (by omega)]
    interval_cases j <;> decide

theorem cfind_write : find_pattern cG3 pattern_write_scancode = .ok 13 := by
  apply find_pattern_eq_ok_iff.mpr
  constructor
  · apply occursAt_iff_getElem.mpr
    refine ⟨(by
      rw [show pattern_write_scancode.length = 4 from rfl, cG3_facts.1]
      norm_num), ?_⟩
    intro k hk
    rw [show pattern_write_scancode.length = 4 from rfl] at hk
    rw [cG3_head (13 + k) (by omega)]
    interval_cases k <;> rfl
  · intro j hj
    apply not_occursAt_of_getElem_ne (k := 0)
      (by rw [show pattern_write_scancode.length = 4 from rfl]; omega)
    rw [Nat.add_zero, cG3_head j (by omega)]
    interval_cases j <;> decide

/-- Constructor form of a successful `find_pattern_all` (kept abstract so that
instantiating it at concrete images stays cheap). -/
theorem find_pattern_all_eq_ok {data pattern : List Nat} {r : Nat} {rs : List Nat}
    (h : findAllLoop data pattern 0 = r :: rs) :
    find_pattern_all data pattern = .ok (r :: rs) := by
  unfold find_pattern_all
  rw [h]

theorem cfind_reads : find_pattern_all cG4 pattern_read_scancode = .ok [7] := by
  have h7 : pyFind cG4 pattern_read_scancode 0 = some 7 := by
    apply pyFind_eq_some_iff.mpr
    refine ⟨by omega, ?_, ?_⟩
    · apply occursAt_iff_getElem.mpr
      refine ⟨(by
        rw [show pattern_read_scancode.length = 3 from rfl, cG4_facts.1]
        norm_num), ?_⟩
      intro k hk
      rw [show pattern_read_scancode.length = 3 from rfl] at hk
      rw [cG4_head (7 + k) (by omega)]
      interval_cases k <;> rfl
    · intro j hj1 hj2
      apply not_occursAt_of_getElem_ne (k := 0)
        (by rw [show pattern_read_scancode.length = 3 from rfl]; omega)
      rw [Nat.add_zero, cG4_head j (by omega)]
      interval_cases j <;> decide
  have h8 : pyFind cG4 pattern_read_scancode 8 = none := by
    apply pyFind_eq_none_iff.mpr
    intro j hj
    apply not_occursAt_of_getElem_ne (k := 0)
      (by rw [show pattern_read_scancode.length = 3 from rfl]; omega)
    rw [Nat.add_zero, show pattern_read_scancode[0]? = some 0xa1 from rfl]
    by_cases hj31 : j < 31
    · rw [cG4_head j (by omega)]
      interval_cases j <;> decide
    · exact cG4_not_a1 j (by omega)
  have e1 : findAllLoop cG4 pattern_read_scancode 0 =
      7 :: findAllLoop cG4 pattern_read_scancode 8 := by
    rw [findAllLoop_unfold, h7]
  have e2 : findAllLoop cG4 pattern_read_scancode 8 = [] := by
    rw [findAllLoop_unfold, h8]
  exact find_pattern_all_eq_ok (by rw [e1, e2])

theorem cfind_round : find_pattern cG5 pattern_round_message = .ok 17 := by
  apply find_pattern_eq_ok_iff.mpr
  constructor
  · apply occursAt_iff_getElem.mpr
    refine ⟨(by
      rw [show pattern_round_message.length = 6 from rfl, cG5_facts.1]
      norm_num), ?_⟩
    intro k hk
    rw [show pattern_round_message.length = 6 from rfl] at hk
    rw [cG5_head (17 + k) (by omega)]
    interval_cases k <;> rfl
  · intro j hj
    by_cases hj4 : j = 4
    · subst hj4
      apply not_occursAt_of_getElem_ne (k := 1)
        (by rw [show pattern_round_message.length = 6 from rfl]; omega)
      rw [cG5_head (4 + 1) (by omega)]
      decide
    · apply not_occursAt_of_getElem_ne (k := 0)
        (by rw [show pattern_round_message.length = 6 from rfl]; omega)
      rw [Nat.add_zero, cG5_head j (by omega)]
      interval_cases j <;> first | decide | omega

theorem cfind_up : find_pattern cG6 pattern_read_up_flag = .ok 23 := by
  apply find_pattern_eq_ok_iff.mpr
  constructor
  · apply occursAt_iff_getElem.mpr
    refine ⟨(by
      rw [show pattern_read_up_flag.length = 3 from rfl, cG6_facts.1]
      norm_num), ?_⟩
    intro k hk
    rw [show pattern_read_up_flag.length = 3 from rfl] at hk
    rw [cG6_head (23 + k) (by omega)]
    interval_cases k <;> rfl
  · intro j hj
    apply not_occursAt_of_getElem_ne (k := 0)
      (by rw [show pattern_read_up_flag.length = 3 from rfl]; omega)
    rw [Nat.add_zero, cG6_head j (by omega)]
    interval_cases j <;> decide

/-! Constructor forms of the site steps, kept abstract so instantiating at a
concrete image stays cheap for the kernel. -/

theorem patch_init_site_eq_ok {gd g3 : List Nat} {addr loc : Nat}
    (hf : find_pattern gd pattern_init_scancode = .ok loc)
    (hc : patch_call gd loc 3 addr = .ok g3) :
    patch_init_site gd addr = .ok g3 := by
  unfold patch_init_site
  rw [hf]
  exact hc

theorem patch_write_site_eq_ok {gd g4 : List Nat} {addr loc : Nat}
    (hf : find_pattern gd pattern_write_scancode = .ok loc)
    (hc : patch_call gd loc 4 addr = .ok g4) :
    patch_write_site gd addr = .ok g4 := by
  unfold patch_write_site
  rw [hf]
  exact hc

theorem patch_read_sites_eq_ok {gd g5 : List Nat} {addr : Nat} {locs : List Nat}
    (hf : find_pattern_all gd pattern_read_scancode = .ok locs)
    (hc : patch_calls_at gd locs addr = .ok g5) :
    patch_read_sites gd addr = .ok g5 := by
  unfold patch_read_sites
  rw [hf]
  exact hc

theorem patch_branch_site_eq_ok {gd g6 : List Nat} {addr loc : Nat}
    (hf : find_pattern gd pattern_round_message = .ok loc)
    (hc : patch_call gd (loc + 3) 3 addr = .ok g6) :
    patch_branch_site gd addr = .ok g6 := by
  unfold patch_branch_site
  rw [hf]
  exact hc

theorem bump_up_flag_eq_ok {gd : List Nat} {loc b : Nat}
    (hf : find_pattern gd pattern_read_up_flag = .ok loc)
    (hb : gd[loc + 7]? = some b) (hlt : b + 1 < 256) :
    bump_up_flag gd = .ok (gd.set (loc + 7) (b + 1)) := by
  unfold bump_up_flag
  simp only [hf, hb, if_pos hlt]

/-- Constructor form of a fully successful orchestrator run. -/
theorem patch_game_eq_ok {img blob gd1 gd2 gd3 gd4 gd5 gd6 gd7 : List Nat}
    {b : Nat → Nat → Option (List Nat)} {kh vars aReset aPut aGet aRound : Nat}
    (hkh : find_pattern img pattern_key_handler = .ok kh)
    (hb : b img.length (kh + ADDR_COM_LOAD) = some blob)
    (hbox : apply_version_box img img.length = .ok gd1)
    (hfoot : read_footer blob = .ok (vars, aReset, aPut, aGet, aRound))
    (hseg : apply_segment_fix gd1 blob.length vars = .ok gd2)
    (hinit : patch_init_site gd2 aReset = .ok gd3)
    (hwrite : patch_write_site gd3 aPut = .ok gd4)
    (hreads : patch_read_sites gd4 aGet = .ok gd5)
    (hbranch : patch_branch_site gd5 aRound = .ok gd6)
    (hbump : bump_up_flag gd6 = .ok gd7) :
    patch_game img b = (canonicalTrace, .ok (gd7 ++ blob)) := by
  unfold patch_game
  simp only [hkh, hb, hbox, hfoot, hseg, hinit, hwrite, hreads, hbranch, hbump]

theorem footer_step : read_footer cFooter =
    .ok (0, 0x909D, 0x90A0, 0x909A, 0x90A7) := rfl

theorem init_step : patch_init_site cG2 0x909D = .ok cG3 :=
  patch_init_site_eq_ok cfind_init rfl

theorem write_step : patch_write_site cG3 0x90A0 = .ok cG4 :=
  patch_write_site_eq_ok cfind_write rfl

theorem reads_step : patch_read_sites cG4 0x909A = .ok cG5 :=
  patch_read_sites_eq_ok cfind_reads rfl

theorem branch_step : patch_branch_site cG5 0x90A7 = .ok cG6 :=
  patch_branch_site_eq_ok cfind_round rfl

theorem bump_step : bump_up_flag cG6 = .ok cG7 := by
  have hb : cG6[(23 : Nat) + 7]? = some 0 := by
    rw [show (23 : Nat) + 7 = 30 from rfl, cG6_head 30 (by omega)]
    rfl
  exact bump_up_flag_eq_ok cfind_up hb (by norm_num)

/-- The full successful run on the synthetic image. -/
theorem concrete_run : patch_game cImg cBuilder = (canonicalTrace, Except.ok cOut) :=
  patch_game_eq_ok cfind_key rfl box_step footer_step seg_step init_step write_step
    reads_step branch_step bump_step

theorem cOut_length : cOut.length = 60426 := by
  rw [cOut, List.length_append, show cG7.length = cG6.length from List.length_set cG6 30 1,
    cG6_facts.1]
  rfl

/-! ## Failing runs used to settle the claims -/

theorem patch_game_eq_error_key {img : List Nat} {b : Nat → Nat → Option (List Nat)}
    {e : Err} (hkh : find_pattern img pattern_key_handler = .error e) :
    patch_game img b = ([.loaded], .error e) := by
  unfold patch_game
  simp only [hkh]

theorem patch_game_eq_error_box {img blob : List Nat}
    {b : Nat → Nat → Option (List Nat)} {kh : Nat} {e : Err}
    (hkh : find_pattern img pattern_key_handler = .ok kh)
    (hb : b img.length (kh + ADDR_COM_LOAD) = some blob)
    (hbox : apply_version_box img img.length = .error e) :
    patch_game img b = ([.loaded, .handlerLocated, .moduleBuilt], .error e) := by
  unfold patch_game
  simp only [hkh, hb, hbox]

theorem patch_game_eq_error_foot {img blob : List Nat}
    {b : Nat → Nat → Option (List Nat)} {kh : Nat} {gd1 : List Nat} {e : Err}
    (hkh : find_pattern img pattern_key_handler = .ok kh)
    (hb : b img.length (kh + ADDR_COM_LOAD) = some blob)
    (hbox : apply_version_box img img.length = .ok gd1)
    (hfoot : read_footer blob = .error e) :
    patch_game img b =
      ([.loaded, .handlerLocated, .moduleBuilt, .cosmeticsApplied], .error e) := by
  unfold patch_game
  simp only [hkh, hb, hbox, hfoot]

theorem patch_game_eq_error_seg {img blob : List Nat}
    {b : Nat → Nat → Option (List Nat)} {kh vars aReset aPut aGet aRound : Nat}
    {gd1 : List Nat} {e : Err}
    (hkh : find_pattern img pattern_key_handler = .ok kh)
    (hb : b img.length (kh + ADDR_COM_LOAD) = some blob)
    (hbox : apply_version_box img img.length = .ok gd1)
    (hfoot : read_footer blob = .ok (vars, aReset, aPut, aGet, aRound))
    (hseg : apply_segment_fix gd1 blob.length vars = .error e) :
    patch_game img b =
      ([.loaded, .handlerLocated, .moduleBuilt, .cosmeticsApplied, .footerParsed],
        .error e) := by
  unfold patch_game
  simp only [hkh, hb, hbox, hfoot, hseg]

theorem apply_version_box_eq_v1 {gd : List Nat} {n : Nat} (hn : n = 0xEC00) :
    apply_version_box gd n = .ok (patch_version_box gd 0xE5A2 0xE5F1 0xE640 0xE68F
      (strBytes "Round 42 v1.0") (strBytes "Keyboard fix 1")) := by
  unfold apply_version_box
  rw [hn, if_pos rfl]

theorem apply_version_box_eq_unknown {gd : List Nat} {n : Nat}
    (h1 : n ≠ 0xEC00) (h2 : n ≠ 0xF382) :
    apply_version_box gd n = .error (.valueError "Unknown game version") := by
  unfold apply_version_box
  rw [if_neg h1, if_neg h2]

theorem read_footer_eq_ok {blob : List Nat} {v r p g o : Nat}
    (h1 : read_le_word blob ((blob.length : Int) - 10) = .ok v)
    (h2 : read_le_word blob ((blob.length : Int) - 8) = .ok r)
    (h3 : read_le_word blob ((blob.length : Int) - 6) = .ok p)
    (h4 : read_le_word blob ((blob.length : Int) - 4) = .ok g)
    (h5 : read_le_word blob ((blob.length : Int) - 2) = .ok o) :
    read_footer blob = .ok (v, r, p, g, o) := by
  unfold read_footer
  simp only [h1, h2, h3, h4, h5]

/-- A word of an all-zero blob reads as zero. -/
theorem read_le_word_replicate_zero {n s : Nat} (h : s + 2 ≤ n) :
    read_le_word (List.replicate n 0) ((s : Nat) : Int) = .ok 0 := by
  have h1 : (List.replicate n 0)[s]? = some 0 :=
    List.getElem?_replicate_of_lt (by omega)
  have h2 : (List.replicate n 0)[s + 1]? = some 0 :=
    List.getElem?_replicate_of_lt (by omega)
  have := read_le_word_of_bytes h1 h2
  simpa using this

theorem apply_segment_fix_eq {gd : List Nat} {plen vs ds : Nat}
    (hds : read_le_word gd (DS_LOCATION : Int) = .ok ds) :
    apply_segment_fix gd plen vs =
      write_le_word gd DS_LOCATION
        (new_ds_value (ADDR_COM_LOAD + gd.length + plen + vs) ds) := by
  unfold apply_segment_fix
  simp only [hds]

theorem write_le_word_eq_error_big {data : List Nat} {offset value : Nat}
    (hv : ¬ value < 65536) : write_le_word data offset value = .error .structError := by
  unfold write_le_word
  rw [if_neg (fun hcon => hv hcon.1)]

/-- The footer parse of the oversized all-zero blob. -/
theorem footBig : read_footer (List.replicate 988000 0) = .ok (0, 0, 0, 0, 0) := by
  have hlen : ((List.replicate 988000 (0 : Nat)).length : Int) = 988000 := by
    rw [List.length_replicate]
    norm_num
  apply read_footer_eq_ok <;>
    rw [hlen] <;>
    first
    | (rw [show (988000 : Int) - 10 = ((987990 : Nat) : Int) from by norm_num]
       exact read_le_word_replicate_zero (by norm_num))
    | (rw [show (988000 : Int) - 8 = ((987992 : Nat) : Int) from by norm_num]
       exact read_le_word_replicate_zero (by norm_num))
    | (rw [show (988000 : Int) - 6 = ((987994 : Nat) : Int) from by norm_num]
       exact read_le_word_replicate_zero (by norm_num))
    | (rw [show (988000 : Int) - 4 = ((987996 : Nat) : Int) from by norm_num]
       exact read_le_word_replicate_zero (by norm_num))
    | (rw [show (988000 : Int) - 2 = ((987998 : Nat) : Int) from by norm_num]
       exact read_le_word_replicate_zero (by norm_num))

/-- Segment fix fails on the oversized blob: the adjusted DS value 65542
does not fit the 16-bit field. -/
theorem segBig : apply_segment_fix cG1 (List.replicate 988000 (0 : Nat)).length 0 =
    .error .structError := by
  rw [apply_segment_fix_eq cG1_ds_read, cG1_length, List.length_replicate,
    show ADDR_COM_LOAD = 256 from rfl,
    show (256 : Nat) + 60416 + 988000 + 0 = 1048672 from rfl,
    show new_ds_value 1048672 0 = 65542 from rfl]
  exact write_le_word_eq_error_big (by norm_num)

/-- A run on the synthetic image whose builder blob makes the extension
footprint so large that the DS fix overflows: all the claim-C8 input
hypotheses hold, yet the run fails after the footer parse. -/
theorem bigBlob_run : patch_game cImg (fun _ _ => some (List.replicate 988000 0)) =
    ([.loaded, .handlerLocated, .moduleBuilt, .cosmeticsApplied, .footerParsed],
     .error .structError) :=
  patch_game_eq_error_seg cfind_key rfl box_step footBig segBig

/-- A second synthetic image of recognised size: only the key-handler pattern,
at offset 0. -/
def cImg2 : List Nat := pattern_key_handler ++ List.replicate 60406 0

theorem cImg2_length : cImg2.length = 60416 := by
  rw [cImg2, List.length_append, List.length_replicate]
  rfl

theorem cImg2_find_key : find_pattern cImg2 pattern_key_handler = .ok 0 := by
  apply find_pattern_eq_ok_iff.mpr
  refine ⟨?_, fun j hj => absurd hj (by omega)⟩
  apply occursAt_iff_getElem.mpr
  refine ⟨by rw [show pattern_key_handler.length = 10 from rfl, cImg2_length]; norm_num,
    ?_⟩
  intro k hk
  rw [show pattern_key_handler.length = 10 from rfl] at hk
  rw [Nat.zero_add, cImg2,
    List.getElem?_append_left (by rw [show pattern_key_handler.length = 10 from rfl]; omega)]

/-- A run on `cImg2` with a builder blob of one byte: the footer parse fails,
while the version box (cosmetics) has already been applied and no call site
has been patched. -/
theorem shortBlob_run : patch_game cImg2 (fun _ _ => some [0]) =
    ([.loaded, .handlerLocated, .moduleBuilt, .cosmeticsApplied],
     .error .structError) :=
  patch_game_eq_error_foot cImg2_find_key rfl
    (apply_version_box_eq_v1 cImg2_length) rfl

/-- A run on a three-byte image of unrecognised size: the failure is the
missing key-handler pattern, not the unknown version. -/
theorem tiny_run : patch_game [0, 0, 0] (fun _ _ => some (List.replicate 10 0)) =
    ([.loaded], .error (.valueError (patternMsg pattern_key_handler))) :=
  patch_game_eq_error_key rfl

/-- A run on an image that is just the key-handler pattern (10 bytes, an
unrecognised size) with a succeeding builder: the run does reach the version
dispatch and fails with the unknown-version error. -/
theorem keyOnly_run : patch_game pattern_key_handler (fun _ _ => some []) =
    ([.loaded, .handlerLocated, .moduleBuilt],
     .error (.valueError "Unknown game version")) := by
  apply @patch_game_eq_error_box pattern_key_handler [] (fun _ _ => some []) 0
    (Err.valueError "Unknown game version")
  · apply find_pattern_eq_ok_iff.mpr
    refine ⟨?_, fun j hj => absurd hj (by omega)⟩
    exact ⟨by norm_num, by rw [List.drop_zero, List.take_of_length_le (by norm_num)]⟩
  · rfl
  · exact apply_version_box_eq_unknown
      (by rw [show pattern_key_handler.length = 10 from rfl]; norm_num)
      (by rw [show pattern_key_handler.length = 10 from rfl]; norm_num)

/-! ## Occurrences of the required patterns in the synthetic input image -/

theorem cImg_occ_key : occursAt cImg pattern_key_handler 0 := by
  apply occursAt_iff_getElem.mpr
  refine ⟨by rw [show pattern_key_handler.length = 10 from rfl, cImg_length]; norm_num,
    ?_⟩
  intro k hk
  rw [show pattern_key_handler.length = 10 from rfl] at hk
  rw [Nat.zero_add, cImg_head k (by omega)]
  interval_cases k <;> rfl

theorem cImg_occ_init : occursAt cImg pattern_init_scancode 10 := by
  apply occursAt_iff_getElem.mpr
  refine ⟨by rw [show pattern_init_scancode.length = 3 from rfl, cImg_length]; norm_num,
    ?_⟩
  intro k hk
  rw [show pattern_init_scancode.length = 3 from rfl] at hk
  rw [cImg_head (10 + k) (by omega)]
  interval_cases k <;> rfl

theorem cImg_occ_write : occursAt cImg pattern_write_scancode 13 := by
  apply occursAt_iff_getElem.mpr
  refine ⟨by rw [show pattern_write_scancode.length = 4 from rfl, cImg_length]; norm_num,
    ?_⟩
  intro k hk
  rw [show pattern_write_scancode.length = 4 from rfl] at hk
  rw [cImg_head (13 + k) (by omega)]
  interval_cases k <;> rfl

theorem cImg_occ_read : occursAt cImg pattern_read_scancode 7 := by
  apply occursAt_iff_getElem.mpr
  refine ⟨by rw [show pattern_read_scancode.length = 3 from rfl, cImg_length]; norm_num,
    ?_⟩
  intro k hk
  rw [show pattern_read_scancode.length = 3 from rfl] at hk
  rw [cImg_head (7 + k) (by omega)]
  interval_cases k <;> rfl

theorem cImg_occ_round : occursAt cImg pattern_round_message 17 := by
  apply occursAt_iff_getElem.mpr
  refine ⟨by rw [show pattern_round_message.length = 6 from rfl, cImg_length]; norm_num,
    ?_⟩
  intro k hk
  rw [show pattern_round_message.length = 6 from rfl] at hk
  rw [cImg_head (17 + k) (by omega)]
  interval_cases k <;> rfl

theorem cImg_occ_up : occursAt cImg pattern_read_up_flag 23 := by
  apply occursAt_iff_getElem.mpr
  refine ⟨by rw [show pattern_read_up_flag.length = 3 from rfl, cImg_length]; norm_num,
    ?_⟩
  intro k hk
  rw [show pattern_read_up_flag.length = 3 from rfl] at hk
  rw [cImg_head (23 + k) (by omega)]
  interval_cases k <;> rfl

theorem cImg_unique_init : ∀ j, occursAt cImg pattern_init_scancode j → j = 10 := by
  intro j hocc
  rcases Nat.lt_or_ge j 31 with hj | hj
  · have h0 := occursAt_imp_getElem hocc 0
      (by rw [show pattern_init_scancode.length = 3 from rfl]; omega)
    rw [Nat.add_zero, cImg_head j (by omega)] at h0
    interval_cases j <;> first | rfl | (exact absurd h0 (by decide))
  · have hb := occursAt_bound hocc
    rw [show pattern_init_scancode.length = 3 from rfl, cImg_length] at hb
    have h0 := occursAt_imp_getElem hocc 0
      (by rw [show pattern_init_scancode.length = 3 from rfl]; omega)
    rw [Nat.add_zero, cImg_tail_zero j (by omega) (by omega)] at h0
    exact absurd h0 (by decide)

theorem cImg_unique_write : ∀ j, occursAt cImg pattern_write_scancode j → j = 13 := by
  intro j hocc
  rcases Nat.lt_or_ge j 31 with hj | hj
  · have h0 := occursAt_imp_getElem hocc 0
      (by rw [show pattern_write_scancode.length = 4 from rfl]; omega)
    rw [Nat.add_zero, cImg_head j (by omega)] at h0
    interval_cases j <;> first | rfl | (exact absurd h0 (by decide))
  · have hb := occursAt_bound hocc
    rw [show pattern_write_scancode.length = 4 from rfl, cImg_length] at hb
    have h0 := occursAt_imp_getElem hocc 0
      (by rw [show pattern_write_scancode.length = 4 from rfl]; omega)
    rw [Nat.add_zero, cImg_tail_zero j (by omega) (by omega)] at h0
    exact absurd h0 (by decide)

theorem cImg_unique_round : ∀ j, occursAt cImg pattern_round_message j → j = 17 := by
  intro j hocc
  rcases Nat.lt_or_ge j 31 with hj | hj
  · by_cases hj4 : j = 4
    · subst hj4
      have h1 := occursAt_imp_getElem hocc 1
        (by rw [show pattern_round_message.length = 6 from rfl]; omega)
      rw [cImg_head (4 + 1) (by omega)] at h1
      exact absurd h1 (by decide)
    · have h0 := occursAt_imp_getElem hocc 0
        (by rw [show pattern_round_message.length = 6 from rfl]; omega)
      rw [Nat.add_zero, cImg_head j (by omega)] at h0
      interval_cases j <;>
        first | rfl | (exact absurd h0 (by decide)) | (exact absurd rfl hj4)
  · have hb := occursAt_bound hocc
    rw [show pattern_round_message.length = 6 from rfl, cImg_length] at hb
    have h0 := occursAt_imp_getElem hocc 0
      (by rw [show pattern_round_message.length = 6 from rfl]; omega)
    rw [Nat.add_zero, cImg_tail_zero j (by omega) (by omega)] at h0
    exact absurd h0 (by decide)

theorem cImg_unique_up : ∀ j, occursAt cImg pattern_read_up_flag j → j = 23 := by
  intro j hocc
  rcases Nat.lt_or_ge j 31 with hj | hj
  · have h0 := occursAt_imp_getElem hocc 0
      (by rw [show pattern_read_up_flag.length = 3 from rfl]; omega)
    rw [Nat.add_zero, cImg_head j (by omega)] at h0
    interval_cases j <;> first | rfl | (exact absurd h0 (by decide))
  · have hb := occursAt_bound hocc
    rw [show pattern_read_up_flag.length = 3 from rfl, cImg_length] at hb
    have h0 := occursAt_imp_getElem hocc 0
      (by rw [show pattern_read_up_flag.length = 3 from rfl]; omega)
    rw [Nat.add_zero, cImg_tail_zero j (by omega) (by omega)] at h0
    exact absurd h0 (by decide)

theorem cImg_unique_key : ∀ j, occursAt cImg pattern_key_handler j → j = 0 := by
  intro j hocc
  rcases Nat.lt_or_ge j 31 with hj | hj
  · by_cases hj3 : j = 3
    · subst hj3
      have h1 := occursAt_imp_getElem hocc 1
        (by rw [show pattern_key_handler.length = 10 from rfl]; omega)
      rw [cImg_head (3 + 1) (by omega)] at h1
      exact absurd h1 (by decide)
    · have h0 := occursAt_imp_getElem hocc 0
        (by rw [show pattern_key_handler.length = 10 from rfl]; omega)
      rw [Nat.add_zero, cImg_head j (by omega)] at h0
      interval_cases j <;>
        first | rfl | (exact absurd h0 (by decide)) | (exact absurd rfl hj3)
  · have hb := occursAt_bound hocc
    rw [show pattern_key_handler.length = 10 from rfl, cImg_length] at hb
    have h0 := occursAt_imp_getElem hocc 0
      (by rw [show pattern_key_handler.length = 10 from rfl]; omega)
    rw [Nat.add_zero, cImg_tail_zero j (by omega) (by omega)] at h0
    exact absurd h0 (by decide)

/-! ## Supporting material for the claim theorems -/

/-- A 93-byte buffer holding the window `[1, 2, 3]` exactly at offsets 10, 50
and 90 (the example of the testable-properties section of the spec). -/
def cBuf : List Nat :=
  List.replicate 10 0 ++ ([1, 2, 3] ++ (List.replicate 37 0 ++
    ([1, 2, 3] ++ (List.replicate 37 0 ++ [1, 2, 3]))))

theorem cBuf_all : find_pattern_all cBuf [1, 2, 3] = Except.ok [10, 50, 90] := by
  have h0 : pyFind cBuf [1, 2, 3] 0 = some 10 := by decide
  have h1 : pyFind cBuf [1, 2, 3] 11 = some 50 := by decide
  have h2 : pyFind cBuf [1, 2, 3] 51 = some 90 := by decide
  have h3 : pyFind cBuf [1, 2, 3] 91 = none := by decide
  have e0 : findAllLoop cBuf [1, 2, 3] 0 = 10 :: findAllLoop cBuf [1, 2, 3] 11 := by
    rw [findAllLoop_unfold, h0]
  have e1 : findAllLoop cBuf [1, 2, 3] 11 = 50 :: findAllLoop cBuf [1, 2, 3] 51 := by
    rw [findAllLoop_unfold, h1]
  have e2 : findAllLoop cBuf [1, 2, 3] 51 = 90 :: findAllLoop cBuf [1, 2, 3] 91 := by
    rw [findAllLoop_unfold, h2]
  have e3 : findAllLoop cBuf [1, 2, 3] 91 = [] := by
    rw [findAllLoop_unfold, h3]
  exact find_pattern_all_eq_ok (by rw [e0, e1, e2, e3])

/-- Elements past the first three of a triple cons. -/
theorem getElem_cons3 {a b c : Nat} {R : List Nat} {k : Nat} :
    (a :: (b :: (c :: R)))[k + 3]? = R[k]? := by
  rw [show k + 3 = k + 1 + 1 + 1 from by omega,
    List.getElem?_cons_succ, List.getElem?_cons_succ, List.getElem?_cons_succ]

/-! ## The claim theorems -/

/-- Claim C1, counterexample to the original text: the displacement is NOT
packed as a silently wrapping signed value.  For a site at offset 0 with
target 2 the displacement is -1; the original claim predicts the wrapped
bytes `e8 ff ff`, but `struct.pack` of patch.py raises `struct.error` on a
negative argument to the unsigned `<H` format, so `patch_call` fails and
writes nothing. -/
theorem claim_C1_cex :
    patch_call [0, 0, 0] 0 3 2 = Except.error Err.structError :=
  patch_call_eq_error_iff.mpr (Or.inl (by norm_num))

/-- Claim C1 (amended): for a patch site of width at least 3 lying inside the
buffer, whenever the displacement `target - (site_offset + 3)` lies in
`[0, 0xFFFF]`, `patch_call` succeeds and writes exactly `site_width` bytes at
the site: the call opcode 0xE8, the little-endian 16-bit displacement, and
no-op filler 0x90; decoding the emitted displacement and adding it to
`site_offset + 3` recovers the target, the buffer length is preserved, and
every byte outside the site is unchanged.  (Displacements outside that range
raise `struct.error` rather than wrapping - see the counterexample.) -/
theorem claim_C1 (data : List Nat) (loc w target : Nat)
    (hw : 3 ≤ w) (hb : loc + w ≤ data.length)
    (h0 : 0 ≤ (target : Int) - ((loc : Int) + 3))
    (h1 : (target : Int) - ((loc : Int) + 3) < 65536) :
    ∃ out d,
      patch_call data loc w target = Except.ok out ∧
      out.length = data.length ∧
      out[loc]? = some 0xe8 ∧
      read_le_word out ((loc + 1 : Nat) : Int) = Except.ok d ∧
      (loc : Int) + 3 + (d : Int) = (target : Int) ∧
      (∀ k, 3 ≤ k → k < w → out[loc + k]? = some 0x90) ∧
      (∀ i, outside loc w i → out[i]? = data[i]?) := by
  obtain ⟨d, hdeq⟩ : ∃ d : Nat, (target : Int) - ((loc : Int) + 3) = (d : Int) :=
    ⟨((target : Int) - ((loc : Int) + 3)).toNat, by omega⟩
  have hdlt : d < 65536 := by omega
  have hpack : pack_le_word ((target : Int) - ((loc : Int) + 3)) =
      Except.ok [d % 256, d / 256] := by
    unfold pack_le_word
    rw [if_pos ⟨h0, h1⟩, hdeq, Int.toNat_natCast]
  have hout : patch_call data loc w target =
      Except.ok (setSlice data loc
        (0xe8 :: ([d % 256, d / 256] ++ List.replicate (w - 3) 0x90)) (loc + w)) := by
    unfold patch_call
    simp only [hpack]
  have hrepl :
      (0xe8 :: ([d % 256, d / 256] ++ List.replicate (w - 3) 0x90)).length = w := by
    simp only [List.length_cons, List.length_append, List.length_replicate,
      List.length_nil]
    omega
  obtain ⟨hlen, hframe⟩ := @setSliceN_frame data loc w
    (0xe8 :: ([d % 256, d / 256] ++ List.replicate (w - 3) 0x90)) hrepl hb
  refine ⟨_, d, hout, hlen, ?_, ?_, by omega, ?_, hframe⟩
  · have h := @setSlice_getElem_mid data loc (loc + w) 0
      (0xe8 :: ([d % 256, d / 256] ++ List.replicate (w - 3) 0x90))
      (by omega) (by simp)
    rw [Nat.add_zero] at h
    rw [h, List.getElem?_cons_zero]
  · have hb1 := @setSlice_getElem_mid data loc (loc + w) 1
      (0xe8 :: ([d % 256, d / 256] ++ List.replicate (w - 3) 0x90))
      (by omega) (by rw [hrepl]; omega)
    have hb2 := @setSlice_getElem_mid data loc (loc + w) 2
      (0xe8 :: ([d % 256, d / 256] ++ List.replicate (w - 3) 0x90))
      (by omega) (by rw [hrepl]; omega)
    have hb1' : (setSlice data loc
        (0xe8 :: ([d % 256, d / 256] ++ List.replicate (w - 3) 0x90))
        (loc + w))[loc + 1]? = some (d % 256) := by
      rw [hb1]
      simp only [List.cons_append, List.nil_append, List.getElem?_cons_succ,
        List.getElem?_cons_zero]
    have hb2' : (setSlice data loc
        (0xe8 :: ([d % 256, d / 256] ++ List.replicate (w - 3) 0x90))
        (loc + w))[loc + 1 + 1]? = some (d / 256) := by
      rw [show loc + 1 + 1 = loc + 2 from by omega, hb2]
      simp only [List.cons_append, List.nil_append, List.getElem?_cons_succ,
        List.getElem?_cons_zero]
    have hr := read_le_word_of_bytes hb1' hb2'
    rw [hr]
    have : d % 256 + 256 * (d / 256) = d := by omega
    rw [this]
  · intro k hk3 hkw
    obtain ⟨k3, rfl⟩ : ∃ k3, k = k3 + 3 := ⟨k - 3, by omega⟩
    have h := @setSlice_getElem_mid data loc (loc + w) (k3 + 3)
      (0xe8 :: ([d % 256, d / 256] ++ List.replicate (w - 3) 0x90))
      (by omega) (by rw [hrepl]; omega)
    rw [h, show (0xe8 :: ([d % 256, d / 256] ++ List.replicate (w - 3) 0x90)) =
      0xe8 :: (d % 256 :: (d / 256 :: List.replicate (w - 3) 0x90)) from rfl,
      getElem_cons3]
    exact List.getElem?_replicate_of_lt (by omega)

/-- Claim C1 witness run: a 5-byte buffer, site offset 1 of width 4,
target 10, displacement 6. -/
theorem claim_C1_witness :
    ∃ out d,
      patch_call (List.replicate 5 0) 1 4 10 = Except.ok out ∧
      out.length = (List.replicate 5 0).length ∧
      out[1]? = some 0xe8 ∧
      read_le_word out ((1 + 1 : Nat) : Int) = Except.ok d ∧
      ((1 : Nat) : Int) + 3 + (d : Int) = ((10 : Nat) : Int) ∧
      (∀ k, 3 ≤ k → k < 4 → out[1 + k]? = some 0x90) ∧
      (∀ i, outside 1 4 i → out[i]? = (List.replicate 5 0)[i]?) :=
  claim_C1 (List.replicate 5 0) 1 4 10 (by norm_num) (by decide)
    (by norm_num) (by norm_num)

/-- Claim C2: the address-space accountant.  The segment fix writes back
exactly `new_ds_value end_of_code ds`; when the overlap
`max 0 (end_of_code - ds*16)` is zero the value is unchanged, and when it is
positive the new value is the least value at least `ds` whose paragraph
address covers `end_of_code`. -/
theorem claim_C2 (gd : List Nat) (plen vs ds : Nat)
    (hds : read_le_word gd (DS_LOCATION : Int) = Except.ok ds) :
    apply_segment_fix gd plen vs =
      write_le_word gd DS_LOCATION
        (new_ds_value (ADDR_COM_LOAD + gd.length + plen + vs) ds) ∧
    ∀ e : Nat,
      (max 0 ((e : Int) - (ds : Int) * 16) = 0 → new_ds_value e ds = ds) ∧
      (0 < max 0 ((e : Int) - (ds : Int) * 16) →
        ds ≤ new_ds_value e ds ∧
        (e : Int) ≤ (new_ds_value e ds : Int) * 16 ∧
        ∀ v : Nat, ds ≤ v → (e : Int) ≤ (v : Int) * 16 → new_ds_value e ds ≤ v) := by
  refine ⟨apply_segment_fix_eq hds, ?_⟩
  intro e
  unfold new_ds_value
  constructor
  · intro h
    omega
  · intro h
    refine ⟨by omega, by omega, ?_⟩
    intro v hv1 hv2
    omega

/-- Claim C2 witness run: an all-zero image holding the DS word, a 3-byte
blob and 4 variable bytes. -/
theorem claim_C2_witness :
    apply_segment_fix (List.replicate 11201 0) 3 4 =
      write_le_word (List.replicate 11201 0) DS_LOCATION
        (new_ds_value (ADDR_COM_LOAD + (List.replicate 11201 0).length + 3 + 4) 0) :=
  (claim_C2 (List.replicate 11201 0) 3 4 0
    (read_le_word_replicate_zero (by decide))).1

/-- Claim C3: a run whose result is an error never carries the `written`
milestone - the output file is created only after every earlier step of the
patch sequence has succeeded. -/
theorem claim_C3 (img : List Nat) (b : Nat → Nat → Option (List Nat)) (e : Err)
    (h : (patch_game img b).2 = Except.error e) :
    Event.written ∉ (patch_game img b).1 := by
  intro hmem
  obtain ⟨out, hout⟩ := written_mem_imp_ok img b hmem
  rw [hout] at h
  exact Except.noConfusion h

/-- Claim C3 witness run: the three-byte image fails on the key-handler
pattern and nothing is written. -/
theorem claim_C3_witness :
    Event.written ∉ (patch_game [0, 0, 0] (fun _ _ => some (List.replicate 10 0))).1 :=
  claim_C3 [0, 0, 0] (fun _ _ => some (List.replicate 10 0))
    (Err.valueError (patternMsg pattern_key_handler)) (by rw [tiny_run])

/-- Claim C4, counterexample to the original text: in an actual successful
run the cosmetics milestone precedes both the segment fix and the first
call-site patch, contradicting the claimed order `... SegmentFixed ->
SitesPatched -> CosmeticsApplied -> Written`. -/
theorem claim_C4_cex :
    ∃ i j k : Nat,
      (patch_game cImg cBuilder).1[i]? = some Event.cosmeticsApplied ∧
      (patch_game cImg cBuilder).1[j]? = some Event.segmentFixed ∧
      (patch_game cImg cBuilder).1[k]? = some Event.sitePatchedInit ∧
      i < j ∧ i < k :=
  ⟨3, 5, 6, by rw [concrete_run]; rfl, by rw [concrete_run]; rfl,
    by rw [concrete_run]; rfl, by norm_num, by norm_num⟩

/-- Claim C4 (amended): every run's milestone trace is a prefix of the fixed
canonical sequence, a successful run realises the whole sequence, and that
sequence is `Loaded, HandlerLocated, ModuleBuilt, CosmeticsApplied,
FooterParsed, SegmentFixed, SitePatched(init, write, read, branch),
UpFlagPatched, Written` - the cosmetics come right after the builder step,
before the footer parse, the segment fix and the call-site patches. -/
theorem claim_C4 :
    (∀ (img : List Nat) (b : Nat → Nat → Option (List Nat)),
      ∃ k, (patch_game img b).1 = canonicalTrace.take k) ∧
    (∀ (img : List Nat) (b : Nat → Nat → Option (List Nat)) (out : List Nat),
      (patch_game img b).2 = Except.ok out → (patch_game img b).1 = canonicalTrace) ∧
    canonicalTrace =
      [Event.loaded, Event.handlerLocated, Event.moduleBuilt, Event.cosmeticsApplied,
       Event.footerParsed, Event.segmentFixed, Event.sitePatchedInit,
       Event.sitePatchedWrite, Event.sitePatchedRead, Event.sitePatchedBranch,
       Event.upFlagPatched, Event.written] := by
  refine ⟨patch_game_trace_take, ?_, rfl⟩
  intro img b out hok
  have h0 : ((patch_game img b).1, (patch_game img b).2) = patch_game img b := rfl
  rw [hok] at h0
  obtain ⟨kh, blob, gd1, vars, aR, aP, aG, aO, gd2, gd3, gd4, gd5, gd6, gd7,
    -, -, -, -, -, -, -, -, -, -, -, htr⟩ := patch_game_ok_inv h0.symm
  exact htr

/-- Claim C5, counterexample to the original text: a three-byte image has an
unrecognised size, yet the run fails with the pattern-not-found error for the
key handler, not with `Unknown game version` - the size check is not the
first step. -/
theorem claim_C5_cex :
    patch_game [0, 0, 0] (fun _ _ => some (List.replicate 10 0)) =
      ([Event.loaded], Except.error (Err.valueError (patternMsg pattern_key_handler))) ∧
    ([0, 0, 0] : List Nat).length ≠ 0xEC00 ∧
    ([0, 0, 0] : List Nat).length ≠ 0xF382 ∧
    patternMsg pattern_key_handler ≠ "Unknown game version" :=
  ⟨tiny_run, by decide, by decide, by decide⟩

/-- Claim C5 (amended): an image of unrecognised size never patches
successfully; when its key-handler pattern is found and the builder
succeeds, the run fails exactly with the unknown-version error, but a
pattern or builder failure can pre-empt the size check. -/
theorem claim_C5 (img : List Nat) (b : Nat → Nat → Option (List Nat))
    (h1 : img.length ≠ 0xEC00) (h2 : img.length ≠ 0xF382) :
    (∀ out, (patch_game img b).2 ≠ Except.ok out) ∧
    (∀ kh blob, find_pattern img pattern_key_handler = Except.ok kh →
      b img.length (kh + ADDR_COM_LOAD) = some blob →
      patch_game img b =
        ([Event.loaded, Event.handlerLocated, Event.moduleBuilt],
         Except.error (Err.valueError "Unknown game version"))) := by
  constructor
  · intro out hcon
    have h0 : ((patch_game img b).1, (patch_game img b).2) = patch_game img b := rfl
    rw [hcon] at h0
    obtain ⟨kh, blob, gd1, vars, aR, aP, aG, aO, gd2, gd3, gd4, gd5, gd6, gd7,
      -, -, hbox, -, -, -, -, -, -, -, -, -⟩ := patch_game_ok_inv h0.symm
    rw [apply_version_box_eq_unknown h1 h2] at hbox
    exact Except.noConfusion hbox
  · intro kh blob hkh hblob
    exact patch_game_eq_error_box hkh hblob (apply_version_box_eq_unknown h1 h2)

/-- Claim C5 witness run: a ten-byte image that is exactly the key-handler
pattern reaches the version dispatch and fails with the unknown-version
error. -/
theorem claim_C5_witness :
    (∀ out, (patch_game pattern_key_handler (fun _ _ => some [])).2 ≠
      Except.ok out) ∧
    (∀ kh blob,
      find_pattern pattern_key_handler pattern_key_handler = Except.ok kh →
      some ([] : List Nat) = some blob →
      patch_game pattern_key_handler (fun _ _ => some []) =
        ([Event.loaded, Event.handlerLocated, Event.moduleBuilt],
         Except.error (Err.valueError "Unknown game version"))) :=
  claim_C5 pattern_key_handler (fun _ _ => some []) (by decide) (by decide)

/-- Claim C6: a pattern with zero occurrences makes both `find_pattern` and
`find_pattern_all` fail with the ValueError whose message carries the hex
rendering of the pattern; neither returns an empty or sentinel result. -/
theorem claim_C6 (data pattern : List Nat) (h : ∀ i, ¬ occursAt data pattern i) :
    find_pattern data pattern = Except.error (Err.valueError (patternMsg pattern)) ∧
    find_pattern_all data pattern = Except.error (Err.valueError (patternMsg pattern)) ∧
    ∃ pre post, patternMsg pattern = pre ++ hexOfPattern pattern ++ post :=
  ⟨find_pattern_eq_error_iff.mpr h, find_pattern_all_eq_error_iff.mpr h,
   "Could not find pattern: [", "] in input file", rfl⟩

/-- Claim C6 witness run: the byte 9 does not occur in `[1, 2, 3]`. -/
theorem claim_C6_witness :
    find_pattern [1, 2, 3] [9] = Except.error (Err.valueError (patternMsg [9])) ∧
    find_pattern_all [1, 2, 3] [9] = Except.error (Err.valueError (patternMsg [9])) ∧
    ∃ pre post, patternMsg [9] = pre ++ hexOfPattern [9] ++ post :=
  claim_C6 [1, 2, 3] [9] (by
    intro i hocc
    have hb := occursAt_bound hocc
    have hi : i ≤ 2 := by simpa using hb
    interval_cases i <;> exact absurd hocc (by decide))

/-- Claim C7: on any buffer with at least one occurrence, `find_pattern_all`
returns every occurrence offset in strictly ascending order; on the 93-byte
buffer with the pattern at offsets 10, 50 and 90 it returns exactly
`[10, 50, 90]`. -/
theorem claim_C7 :
    (∀ data pattern : List Nat, (∃ i, occursAt data pattern i) →
      ∃ l, find_pattern_all data pattern = Except.ok l ∧
        List.Pairwise (fun a b => a < b) l ∧
        ∀ i, i ∈ l ↔ occursAt data pattern i) ∧
    find_pattern_all cBuf [1, 2, 3] = Except.ok [10, 50, 90] :=
  ⟨fun _ _ hex => find_pattern_all_ok hex, cBuf_all⟩

/-- Claim C8, counterexample to the original text: the synthetic image has
the recognised v1.0 size, contains every required single-occurrence pattern
exactly once and the read pattern at least once, yet the run with a builder
returning an oversized blob fails (the adjusted DS value does not fit its
16-bit field), so the stated hypotheses do not suffice for success. -/
theorem claim_C8_cex :
    cImg.length = 0xEC00 ∧
    occursAt cImg pattern_key_handler 0 ∧
    (∀ j, occursAt cImg pattern_key_handler j → j = 0) ∧
    occursAt cImg pattern_init_scancode 10 ∧
    (∀ j, occursAt cImg pattern_init_scancode j → j = 10) ∧
    occursAt cImg pattern_write_scancode 13 ∧
    (∀ j, occursAt cImg pattern_write_scancode j → j = 13) ∧
    occursAt cImg pattern_round_message 17 ∧
    (∀ j, occursAt cImg pattern_round_message j → j = 17) ∧
    occursAt cImg pattern_read_up_flag 23 ∧
    (∀ j, occursAt cImg pattern_read_up_flag j → j = 23) ∧
    occursAt cImg pattern_read_scancode 7 ∧
    (∀ out, (patch_game cImg (fun _ _ => some (List.replicate 988000 0))).2 ≠
      Except.ok out) :=
  ⟨cImg_length, cImg_occ_key, cImg_unique_key, cImg_occ_init, cImg_unique_init,
   cImg_occ_write, cImg_unique_write, cImg_occ_round, cImg_unique_round,
   cImg_occ_up, cImg_unique_up, cImg_occ_read,
   fun out hcon => by rw [bigBlob_run] at hcon; exact Except.noConfusion hcon⟩

/-- Claim C8 (amended): every successful run has a recognised image size, a
located key handler and a builder blob, and its output length is the input
image length plus the builder blob length (the in-place mutations preserve
the image length). -/
theorem claim_C8 (img out : List Nat) (b : Nat → Nat → Option (List Nat))
    (tr : List Event) (h : patch_game img b = (tr, Except.ok out)) :
    ∃ kh blob,
      find_pattern img pattern_key_handler = Except.ok kh ∧
      b img.length (kh + ADDR_COM_LOAD) = some blob ∧
      (img.length = 0xEC00 ∨ img.length = 0xF382) ∧
      out.length = img.length + blob.length := by
  obtain ⟨kh, blob, gd1, vars, aR, aP, aG, aO, gd2, gd3, gd4, gd5, gd6, gd7,
    a1, a2, a3, a4, locI, locW, rlocs, locR, locU, byteU,
    hkh, hblob, hbox, hver, -, -, -, -, -, -, -, -, -, -, -, -, -, -, -, -, -,
    houtlen, -⟩ := patch_game_ok_full h
  refine ⟨kh, blob, hkh, hblob, ?_, houtlen⟩
  rcases hver with ⟨hs, -⟩ | ⟨hs, -⟩
  · exact Or.inl hs
  · exact Or.inr hs

/-- Claim C8 witness run: the successful synthetic run, output length
60426 = 60416 + 10. -/
theorem claim_C8_witness :
    ∃ kh blob,
      find_pattern cImg pattern_key_handler = Except.ok kh ∧
      cBuilder cImg.length (kh + ADDR_COM_LOAD) = some blob ∧
      (cImg.length = 0xEC00 ∨ cImg.length = 0xF382) ∧
      cOut.length = cImg.length + blob.length :=
  claim_C8 cImg cOut cBuilder canonicalTrace concrete_run

/-- Claim C9: the fifth mutation, absent from the spec.  When the first
occurrence of the pattern `a0 66 0c` is at `loc` and the byte at `loc + 7`
is below 0xFF, `bump_up_flag` increments exactly that byte in place and
leaves every other byte unchanged. -/
theorem claim_C9 (data : List Nat) (loc b : Nat)
    (hf : find_pattern data pattern_read_up_flag = Except.ok loc)
    (hb : data[loc + 7]? = some b) (hlt : b + 1 < 256) :
    pattern_read_up_flag = [0xa0, 0x66, 0x0c] ∧
    occursAt data pattern_read_up_flag loc ∧
    (∀ j, j < loc → ¬ occursAt data pattern_read_up_flag j) ∧
    bump_up_flag data = Except.ok (data.set (loc + 7) (b + 1)) ∧
    (data.set (loc + 7) (b + 1))[loc + 7]? = some (b + 1) ∧
    (∀ i, i ≠ loc + 7 → (data.set (loc + 7) (b + 1))[i]? = data[i]?) := by
  obtain ⟨hocc, hmin⟩ := find_pattern_eq_ok_iff.mp hf
  have hlen : loc + 7 < data.length := by
    by_contra hge
    rw [List.getElem?_eq_none (by omega)] at hb
    exact Option.noConfusion hb
  refine ⟨rfl, hocc, hmin, bump_up_flag_eq_ok hf hb hlt, ?_, ?_⟩
  · rw [List.getElem?_set_self', List.getElem?_eq_getElem hlen]
    rfl
  · intro i hi
    exact List.getElem?_set_ne (by omega)

/-- Claim C9 witness run: an 8-byte buffer with the pattern at offset 0 and
the byte 5 at offset 7, incremented to 6. -/
theorem claim_C9_witness :
    pattern_read_up_flag = [0xa0, 0x66, 0x0c] ∧
    occursAt [0xa0, 0x66, 0x0c, 0, 0, 0, 0, 5] pattern_read_up_flag 0 ∧
    (∀ j, j < 0 → ¬ occursAt [0xa0, 0x66, 0x0c, 0, 0, 0, 0, 5] pattern_read_up_flag j) ∧
    bump_up_flag [0xa0, 0x66, 0x0c, 0, 0, 0, 0, 5] =
      Except.ok (([0xa0, 0x66, 0x0c, 0, 0, 0, 0, 5] : List Nat).set (0 + 7) (5 + 1)) ∧
    (([0xa0, 0x66, 0x0c, 0, 0, 0, 0, 5] : List Nat).set (0 + 7) (5 + 1))[0 + 7]? =
      some (5 + 1) ∧
    (∀ i, i ≠ 0 + 7 →
      (([0xa0, 0x66, 0x0c, 0, 0, 0, 0, 5] : List Nat).set (0 + 7) (5 + 1))[i]? =
        ([0xa0, 0x66, 0x0c, 0, 0, 0, 0, 5] : List Nat)[i]?) :=
  claim_C9 [0xa0, 0x66, 0x0c, 0, 0, 0, 0, 5] 0 5
    (by
      apply find_pattern_eq_ok_iff.mpr
      refine ⟨by decide, ?_⟩
      intro j hj
      exact absurd hj (by omega))
    (by rfl) (by norm_num)

/-- Claim C10: the frame property of a successful run.  The run's
intermediate images are pinned by the step chain - the version box applied
to the input, the segment fix, and the four call-site patches in source
order - so the located offsets are the run's actual patch sites; every byte
of the input image outside the four version-box rows, the two-byte DS word,
those call-patch sites and the single incremented up-flag byte appears
unchanged at the same offset in the output. -/
theorem claim_C10 (img out : List Nat) (b : Nat → Nat → Option (List Nat))
    (tr : List Event) (h : patch_game img b = (tr, Except.ok out)) :
    ∃ kh blob gd1 vars aReset aPut aGet aRound gd2 gd3 gd4 gd5 gd6 gd7
      a1 a2 a3 a4 locI locW rlocs locR locU,
      find_pattern img pattern_key_handler = Except.ok kh ∧
      b img.length (kh + ADDR_COM_LOAD) = some blob ∧
      apply_version_box img img.length = Except.ok gd1 ∧
      ((img.length = 0xEC00 ∧ a1 = 0xE5A2 ∧ a2 = 0xE5F1 ∧ a3 = 0xE640 ∧ a4 = 0xE68F) ∨
        (img.length = 0xF382 ∧ a1 = 0xED21 ∧ a2 = 0xED44 ∧ a3 = 0xED93 ∧
          a4 = 0xEDE2)) ∧
      read_footer blob = Except.ok (vars, aReset, aPut, aGet, aRound) ∧
      apply_segment_fix gd1 blob.length vars = Except.ok gd2 ∧
      patch_init_site gd2 aReset = Except.ok gd3 ∧
      patch_write_site gd3 aPut = Except.ok gd4 ∧
      patch_read_sites gd4 aGet = Except.ok gd5 ∧
      patch_branch_site gd5 aRound = Except.ok gd6 ∧
      bump_up_flag gd6 = Except.ok gd7 ∧
      out = gd7 ++ blob ∧
      find_pattern gd2 pattern_init_scancode = Except.ok locI ∧
      find_pattern gd3 pattern_write_scancode = Except.ok locW ∧
      find_pattern_all gd4 pattern_read_scancode = Except.ok rlocs ∧
      find_pattern gd5 pattern_round_message = Except.ok locR ∧
      find_pattern gd6 pattern_read_up_flag = Except.ok locU ∧
      ∀ i, i < img.length →
        outside a1 16 i → outside a2 16 i → outside a3 16 i → outside a4 16 i →
        outside DS_LOCATION 2 i →
        outside locI 3 i → outside locW 4 i →
        (∀ r, r ∈ rlocs → outside r 3 i) →
        outside (locR + 3) 3 i →
        i ≠ locU + 7 →
        out[i]? = img[i]? := by
  obtain ⟨kh, blob, gd1, vars, aR, aP, aG, aO, gd2, gd3, gd4, gd5, gd6, gd7,
    a1, a2, a3, a4, locI, locW, rlocs, locR, locU, byteU,
    hkh, hblob, hbox, hver, hfoot, hseg, hinit, hwrite, hreads, hbranch, hbump,
    hlocI, hlocW, hrlocs, hlocR, hlocU, -, -, -, hout, -, -, hframe⟩ :=
    patch_game_ok_full h
  exact ⟨kh, blob, gd1, vars, aR, aP, aG, aO, gd2, gd3, gd4, gd5, gd6, gd7,
    a1, a2, a3, a4, locI, locW, rlocs, locR, locU,
    hkh, hblob, hbox, hver, hfoot, hseg, hinit, hwrite, hreads, hbranch, hbump,
    hout, hlocI, hlocW, hrlocs, hlocR, hlocU, hframe⟩

/-- Claim C10 witness run: the frame property (with its pinning step chain)
instantiated at the successful synthetic run. -/
theorem claim_C10_witness :
    ∃ kh blob gd1 vars aReset aPut aGet aRound gd2 gd3 gd4 gd5 gd6 gd7
      a1 a2 a3 a4 locI locW rlocs locR locU,
      find_pattern cImg pattern_key_handler = Except.ok kh ∧
      cBuilder cImg.length (kh + ADDR_COM_LOAD) = some blob ∧
      apply_version_box cImg cImg.length = Except.ok gd1 ∧
      ((cImg.length = 0xEC00 ∧ a1 = 0xE5A2 ∧ a2 = 0xE5F1 ∧ a3 = 0xE640 ∧
          a4 = 0xE68F) ∨
        (cImg.length = 0xF382 ∧ a1 = 0xED21 ∧ a2 = 0xED44 ∧ a3 = 0xED93 ∧
          a4 = 0xEDE2)) ∧
      read_footer blob = Except.ok (vars, aReset, aPut, aGet, aRound) ∧
      apply_segment_fix gd1 blob.length vars = Except.ok gd2 ∧
      patch_init_site gd2 aReset = Except.ok gd3 ∧
      patch_write_site gd3 aPut = Except.ok gd4 ∧
      patch_read_sites gd4 aGet = Except.ok gd5 ∧
      patch_branch_site gd5 aRound = Except.ok gd6 ∧
      bump_up_flag gd6 = Except.ok gd7 ∧
      cOut = gd7 ++ blob ∧
      find_pattern gd2 pattern_init_scancode = Except.ok locI ∧
      find_pattern gd3 pattern_write_scancode = Except.ok locW ∧
      find_pattern_all gd4 pattern_read_scancode = Except.ok rlocs ∧
      find_pattern gd5 pattern_round_message = Except.ok locR ∧
      find_pattern gd6 pattern_read_up_flag = Except.ok locU ∧
      ∀ i, i < cImg.length →
        outside a1 16 i → outside a2 16 i → outside a3 16 i → outside a4 16 i →
        outside DS_LOCATION 2 i →
        outside locI 3 i → outside locW 4 i →
        (∀ r, r ∈ rlocs → outside r 3 i) →
        outside (locR + 3) 3 i →
        i ≠ locU + 7 →
        cOut[i]? = cImg[i]? :=
  claim_C10 cImg cOut cBuilder canonicalTrace concrete_run
